import Mathlib

/-!
Verification development for the edge/path geometry engine of a
network-graph SVG rendering library.

The definitions below are a shallow embedding of the TypeScript
sources:

* `src/composables/state.ts` — reactive node/edge state, the curve
  geometry (`createEdgeState`, `calculateCurvePositionAndState`,
  `createSummarizedEdgeStates`);
* the path rendering component — path list filtering (`pathList`),
  direction detection (`_detectDirectionsOfPathEdges`) and the path
  point engine (`_calculatePathPoints` and its helpers);
* `src/common/configs.ts` — the configuration model (callable-or-literal
  style values, marker and edge configuration records).

The helper modules `common/2d.ts`, `common/vector.ts` and
`common/edge-group.ts` are not part of the provided sources; each
function taken from one of them is modelled from the specification
(section 4.1 to 4.3) and carries a doc comment starting with
"Modelled from the spec".  All JavaScript numbers are modelled as
real numbers; JavaScript records are modelled either as functions
into `Option` or as association lists where iteration order matters.
-/

namespace VNG

/-- Two dimensional vector, the model of `V.Vector` from
`common/vector.ts` and of the `Position` record `\x7bx, y\x7d`. -/
structure Vec2 where
  x : ℝ
  y : ℝ

noncomputable instance : DecidableEq Vec2 := fun a b =>
  decidable_of_iff (a.x = b.x ∧ a.y = b.y) (by cases a; cases b; simp)

/-- Vector addition. -/
def vadd (a b : Vec2) : Vec2 := ⟨a.x + b.x, a.y + b.y⟩

/-- Vector subtraction. -/
def vsub (a b : Vec2) : Vec2 := ⟨a.x - b.x, a.y - b.y⟩

/-- Scalar multiplication (the `multiplyScalar` method). -/
def smul (r : ℝ) (a : Vec2) : Vec2 := ⟨r * a.x, r * a.y⟩

/-- Dot product. -/
def dot (a b : Vec2) : ℝ := a.x * b.x + a.y * b.y

/-- Cross product (z component). -/
def cross (a b : Vec2) : ℝ := a.x * b.y - a.y * b.x

/-- Euclidean norm of a vector (the `length` method). -/
noncomputable def vnorm (a : Vec2) : ℝ := Real.sqrt (a.x ^ 2 + a.y ^ 2)

/-- Modelled from the spec: the `normalize` method of the vector
library (missing `common/vector.ts`): the vector scaled to length one.
The degenerate zero vector is mapped to zero. -/
noncomputable def normalize (a : Vec2) : Vec2 :=
  if vnorm a = 0 then ⟨0, 0⟩ else smul (1 / vnorm a) a

/-- Modelled from the spec: `V.calculateDistance` (missing
`common/vector.ts`), the euclidean distance of two points. -/
noncomputable def calculateDistance (a b : Vec2) : ℝ := vnorm (vsub b a)

/-- The `LinePosition` record `\x7bx1, y1, x2, y2\x7d` of `common/types.ts`. -/
structure LinePosition where
  x1 : ℝ
  y1 : ℝ
  x2 : ℝ
  y2 : ℝ

/-- The `V.Line` record: a line segment given by its two end points.
The `v` field of the source is the derived function `Line.v`. -/
structure Line where
  source : Vec2
  target : Vec2

/-- Direction vector of a line (the `v` field of `V.Line`). -/
def Line.v (l : Line) : Vec2 := vsub l.target l.source

/-- Modelled from the spec: `V.fromLinePosition` (missing
`common/vector.ts`). -/
def fromLinePosition (lp : LinePosition) : Line :=
  { source := ⟨lp.x1, lp.y1⟩, target := ⟨lp.x2, lp.y2⟩ }

/-- Modelled from the spec: `V.toVectorsFromLinePosition` (missing
`common/vector.ts`). -/
def toVectorsFromLinePosition (lp : LinePosition) : Vec2 × Vec2 :=
  (⟨lp.x1, lp.y1⟩, ⟨lp.x2, lp.y2⟩)

/-- Modelled from the spec: `V.getCenterOfLinePosition` (missing
`common/vector.ts`), the midpoint of a line segment. -/
noncomputable def getCenterOfLinePosition (lp : LinePosition) : Vec2 :=
  ⟨(lp.x1 + lp.x2) / 2, (lp.y1 + lp.y2) / 2⟩

/-- Modelled from the spec: `V.fromVectors` (missing
`common/vector.ts`), the vector pointing from `a` to `b`. -/
def fromVectors (a b : Vec2) : Vec2 := vsub b a

/-- Modelled from the spec: `V.fromPositions` (missing
`common/vector.ts`), the vector pointing from `a` to `b`. -/
def fromPositions (a b : Vec2) : Vec2 := vsub b a

/-- Modelled from the spec: `v2d.positionsToLinePosition` (missing
`common/2d.ts`), packing two points into a `LinePosition`. -/
def positionsToLinePosition (p q : Vec2) : LinePosition :=
  { x1 := p.x, y1 := p.y, x2 := q.x, y2 := q.y }

/-- Modelled from the spec: `v2d.inverseLine` (missing
`common/2d.ts`), swapping the two end points of a line. -/
def inverseLine (lp : LinePosition) : LinePosition :=
  { x1 := lp.x2, y1 := lp.y2, x2 := lp.x1, y2 := lp.y1 }

/-!
Path list filtering (claim C1).

The path component receives `props.paths` (a list of `Path` records)
and `props.edges` (a record mapping edge identifiers to edges).  The
computed property `pathList` resolves every edge identifier of a path
and rejects the whole path when any identifier is unknown.
-/

/-- The `Edge` record of `common/types.ts`: source and target node
identifiers.  The open property bag is irrelevant to the geometry
engine and is not modelled. -/
structure Edge where
  source : String
  target : String
deriving DecidableEq

/-- The `Path` record of `common/types.ts`: an ordered list of edge
identifiers. -/
structure Path where
  edges : List String
deriving DecidableEq

/-- The `EdgeObject` record of the path component: an edge identifier
paired with its resolved edge. -/
structure EdgeObject where
  edgeId : String
  edge : Edge
deriving DecidableEq

/-- The `PathObject` record of the path component: a path paired with
its fully resolved edge list. -/
structure PathObject where
  path : Path
  edges : List EdgeObject
deriving DecidableEq

/-- The edge resolution step of `pathList`:
`path.edges.map(edgeId => (\x7bedgeId, edge: props.edges[edgeId]\x7d)).filter(e => e.edge)`. -/
def resolvePathEdges (em : String → Option Edge) (ids : List String) :
    List EdgeObject :=
  (ids.map (fun edgeId => (edgeId, em edgeId))).filterMap
    (fun p => p.2.map (fun e => { edgeId := p.1, edge := e }))

/-- The `pathList` computed property of the path component: for every
path, resolve its edge identifiers; when the number of resolved edges
differs from the number of identifiers (that is, some identifier is
unknown) the path is skipped, otherwise it is kept with its full
resolved edge list. -/
def pathList (paths : List Path) (em : String → Option Edge) :
    List PathObject :=
  paths.filterMap (fun path =>
    let edges := resolvePathEdges em path.edges
    if edges.length = path.edges.length then
      some { path := path, edges := edges }
    else none)

theorem resolvePathEdges_eq (em : String → Option Edge) (ids : List String) :
    resolvePathEdges em ids
      = ids.filterMap (fun id => (em id).map (fun e => { edgeId := id, edge := e })) := by
  unfold resolvePathEdges
  rw [List.filterMap_map]
  rfl

theorem resolvePathEdges_length (em : String → Option Edge) (ids : List String) :
    (resolvePathEdges em ids).length = ids.countP (fun id => (em id).isSome) := by
  rw [resolvePathEdges_eq]
  induction ids with
  | nil => rfl
  | cons a l ih =>
      rw [List.filterMap_cons, List.countP_cons]
      cases h : em a <;> simp [h, ih]

theorem resolvePathEdges_map_edgeId (em : String → Option Edge) (ids : List String)
    (h : ∀ id ∈ ids, (em id).isSome) :
    (resolvePathEdges em ids).map EdgeObject.edgeId = ids := by
  rw [resolvePathEdges_eq]
  induction ids with
  | nil => rfl
  | cons a l ih =>
      rcases Option.isSome_iff_exists.mp (h a (by simp)) with ⟨e, he⟩
      rw [List.filterMap_cons]
      simp only [he, Option.map_some']
      rw [List.map_cons]
      rw [ih (fun id hid => h id (by simp [hid]))]

theorem resolvePathEdges_resolves (em : String → Option Edge) (ids : List String) :
    ∀ eo ∈ resolvePathEdges em ids, em eo.edgeId = some eo.edge := by
  rw [resolvePathEdges_eq]
  intro eo heo
  rcases List.mem_filterMap.mp heo with ⟨id, _, hmap⟩
  cases h : em id with
  | none => rw [h] at hmap; simp at hmap
  | some e =>
      rw [h] at hmap
      simp only [Option.map_some', Option.some.injEq] at hmap
      subst hmap
      exact h

theorem pathList_length_cond (em : String → Option Edge) (ids : List String) :
    ((resolvePathEdges em ids).length = ids.length)
      ↔ ∀ id ∈ ids, (em id).isSome := by
  rw [resolvePathEdges_length]
  exact List.countP_eq_length

/-- Claim C1: the renderable path list excludes, in its entirety, any
path whose edge list contains an identifier not present in the edge
map, and a path all of whose edge identifiers resolve is included
unchanged: the paths kept are exactly those whose identifiers all
resolve, and every kept path carries its full original identifier
list, each identifier paired with the edge it resolves to. -/
theorem c1_path_rejection (paths : List Path) (em : String → Option Edge) :
    ((pathList paths em).map PathObject.path
      = paths.filter (fun p => p.edges.all (fun id => (em id).isSome)))
    ∧ ∀ po ∈ pathList paths em,
        po.edges.map EdgeObject.edgeId = po.path.edges
        ∧ ∀ eo ∈ po.edges, em eo.edgeId = some eo.edge := by
  constructor
  · induction paths with
    | nil => rfl
    | cons p ps ih =>
        unfold pathList
        rw [List.filterMap_cons, List.filter_cons]
        by_cases h : (resolvePathEdges em p.edges).length = p.edges.length
        · have hall : p.edges.all (fun id => (em id).isSome) = true := by
            rw [List.all_eq_true]
            intro id hid
            exact (pathList_length_cond em p.edges).mp h id hid
          simp only [h, if_pos, hall, if_true, List.map_cons]
          exact congrArg (List.cons p) ih
        · have hall : ¬ p.edges.all (fun id => (em id).isSome) = true := by
            rw [List.all_eq_true]
            intro hc
            exact h ((pathList_length_cond em p.edges).mpr hc)
          simp only [h, if_neg, hall, if_false]
          exact ih
  · intro po hpo
    unfold pathList at hpo
    rcases List.mem_filterMap.mp hpo with ⟨p, _, hsome⟩
    by_cases h : (resolvePathEdges em p.edges).length = p.edges.length
    · simp only [h, if_pos] at hsome
      cases hsome
      constructor
      · exact resolvePathEdges_map_edgeId em p.edges
          ((pathList_length_cond em p.edges).mp h)
      · exact resolvePathEdges_resolves em p.edges
    · rw [if_neg h] at hsome
      cases hsome

/-- Concrete edge map used by the witness of claim C1: only the
identifier `e1` is known. -/
def c1ExampleEdges : String → Option Edge := fun id =>
  if id = "e1" then some { source := "a", target := "b" } else none

theorem c1_path_rejection_witness :
    ([{ edgeId := "e1", edge := { source := "a", target := "b" } }] : List EdgeObject).map
        EdgeObject.edgeId = ["e1"]
    ∧ ∀ eo ∈ ([{ edgeId := "e1", edge := { source := "a", target := "b" } }] : List EdgeObject),
        c1ExampleEdges eo.edgeId = some eo.edge :=
  (c1_path_rejection [{ edges := ["e1"] }] c1ExampleEdges).2
    { path := { edges := ["e1"] },
      edges := [{ edgeId := "e1", edge := { source := "a", target := "b" } }] }
    (by decide)

/-!
Direction detection for path edges (claim C6), from
`_detectDirectionsOfPathEdges` of the path component.
-/

/-- Model of the JavaScript `[a, b].sort()` on a two element array of
strings: the pair in ascending order. -/
def sortPair (a b : String) : String × String :=
  if b < a then (b, a) else (a, b)

/-- The loop body of `_detectDirectionsOfPathEdges` for indices `i ≥ 1`:
`isForward = lastNode === source`, and the node reached becomes
`target` when forward, `source` otherwise. -/
def detectDirectionsAux (lastNode : String) : List Edge → List Bool
  | [] => []
  | e :: rest =>
      let isForward := lastNode == e.source
      isForward :: detectDirectionsAux (if isForward then e.target else e.source) rest

/-- The `i = 0` branch of `_detectDirectionsOfPathEdges`: when a third
edge exists and the first two edges connect the same unordered node
pair, the third edge disambiguates; otherwise edge 0 is forward iff
its target occurs among the second edge's end points. -/
def detectFirstDirection (e0 e1 : Edge) : Option Edge → Bool
  | some e2 =>
      if sortPair e0.source e0.target = sortPair e1.source e1.target then
        if e2.source == e1.target || e2.target == e1.target then
          -- edge1 is forward
          e0.target == e1.source
        else
          -- edge1 is reverse
          e0.target == e1.target
      else
        e0.target == e1.source || e0.target == e1.target
  | none => e0.target == e1.source || e0.target == e1.target

/-- The `_detectDirectionsOfPathEdges` function of the path component,
returning for each edge of the chain whether it is traversed forward.
A chain of length at most one (including the empty chain, as in the
source) yields `[true]`. -/
def detectDirectionsOfPathEdges (edges : List Edge) : List Bool :=
  match edges with
  | [] => [true]
  | [_] => [true]
  | e0 :: e1 :: rest =>
      let isForward0 :=
        match rest with
        | e2 :: _ => detectFirstDirection e0 e1 (some e2)
        | [] => detectFirstDirection e0 e1 none
      isForward0 ::
        detectDirectionsAux (if isForward0 then e0.target else e0.source) (e1 :: rest)

/-- The node reached after traversing an edge in the given direction. -/
def reachedNode (e : Edge) (forward : Bool) : String :=
  if forward then e.target else e.source

/-- Default edge used with `List.getD` in index statements. -/
def dEdge : Edge := { source := "", target := "" }

theorem detectDirectionsAux_length (lastNode : String) (l : List Edge) :
    (detectDirectionsAux lastNode l).length = l.length := by
  induction l generalizing lastNode with
  | nil => rfl
  | cons e rest ih => simpa [detectDirectionsAux] using ih _

theorem detectDirectionsAux_step (lastNode : String) (l : List Edge) :
    ∀ i, i + 1 < l.length →
      (((detectDirectionsAux lastNode l).getD (i + 1) true = true)
        ↔ (l.getD (i + 1) dEdge).source
            = reachedNode (l.getD i dEdge) ((detectDirectionsAux lastNode l).getD i true)) := by
  induction l generalizing lastNode with
  | nil => intro i hi; simp at hi
  | cons e rest ih =>
      intro i hi
      match i with
      | 0 =>
          cases rest with
          | nil => simp at hi
          | cons e2 rest2 =>
              simp only [detectDirectionsAux, List.getD_cons_succ, List.getD_cons_zero,
                reachedNode]
              constructor
              · intro h
                exact (beq_iff_eq.mp h).symm
              · intro h
                exact beq_iff_eq.mpr h.symm
      | Nat.succ j =>
          have hj : j + 1 < rest.length := by
            simpa [Nat.succ_lt_succ_iff] using hi
          simpa only [detectDirectionsAux, List.getD_cons_succ] using
            ih (if (lastNode == e.source) then e.target else e.source) j hj

/-- Claim C6: for a path of at least three edges whose first two edges
connect the identical unordered node pair, edge 0 is forward iff (when
the third edge's end points include edge 1's target) its target equals
edge 1's source, and otherwise iff its target equals edge 1's target;
every subsequent edge `i ≥ 1` is forward iff its source equals the
node reached after traversing edge `i - 1`. -/
theorem c6_direction_detection (edges : List Edge) (e0 e1 e2 : Edge) (rest : List Edge)
    (hshape : edges = e0 :: e1 :: e2 :: rest)
    (hpair : sortPair e0.source e0.target = sortPair e1.source e1.target) :
    (detectDirectionsOfPathEdges edges).length = edges.length
    ∧ ((detectDirectionsOfPathEdges edges).getD 0 true = true
        ↔ (if e2.source = e1.target ∨ e2.target = e1.target
            then e0.target = e1.source else e0.target = e1.target))
    ∧ ∀ i, i + 1 < edges.length →
        (((detectDirectionsOfPathEdges edges).getD (i + 1) true = true)
          ↔ (edges.getD (i + 1) dEdge).source
              = reachedNode (edges.getD i dEdge)
                  ((detectDirectionsOfPathEdges edges).getD i true)) := by
  subst hshape
  refine ⟨?_, ?_, ?_⟩
  · simp [detectDirectionsOfPathEdges, detectDirectionsAux_length]
  · simp only [detectDirectionsOfPathEdges, detectFirstDirection, if_pos hpair,
      List.getD_cons_zero]
    by_cases h : e2.source = e1.target ∨ e2.target = e1.target
    · have hb : (e2.source == e1.target || e2.target == e1.target) = true := by
        simpa [beq_iff_eq] using h
      rw [if_pos hb, if_pos h]
      exact beq_iff_eq
    · have hb : ¬ (e2.source == e1.target || e2.target == e1.target) = true := by
        simpa [beq_iff_eq] using h
      rw [if_neg hb, if_neg h]
      exact beq_iff_eq
  · intro i hi
    match i with
    | 0 =>
        simp only [detectDirectionsOfPathEdges, List.getD_cons_succ, List.getD_cons_zero,
          detectDirectionsAux, reachedNode]
        constructor
        · intro h
          exact (beq_iff_eq.mp h).symm
        · intro h
          exact beq_iff_eq.mpr h.symm
    | Nat.succ j =>
        have hj : j + 1 < (e1 :: e2 :: rest).length := by
          simpa [Nat.succ_lt_succ_iff] using hi
        simpa only [detectDirectionsOfPathEdges, List.getD_cons_succ] using
          detectDirectionsAux_step
            (if detectFirstDirection e0 e1 (some e2) then e0.target else e0.source)
            (e1 :: e2 :: rest) j hj

theorem c6_direction_detection_witness :
    (detectDirectionsOfPathEdges
        [{ source := "a", target := "b" }, { source := "a", target := "b" },
          { source := "b", target := "c" }]).length = 3
    ∧ ((detectDirectionsOfPathEdges
        [{ source := "a", target := "b" }, { source := "a", target := "b" },
          { source := "b", target := "c" }]).getD 0 true = true
        ↔ (if ("b" : String) = "b" ∨ ("c" : String) = "b"
            then ("b" : String) = "a" else ("b" : String) = "b")) := by
  have h := c6_direction_detection
    [{ source := "a", target := "b" }, { source := "a", target := "b" },
      { source := "b", target := "c" }]
    { source := "a", target := "b" } { source := "a", target := "b" }
    { source := "b", target := "c" } [] rfl rfl
  exact ⟨h.1, h.2.1⟩

/-!
Summarized edge states (claim C10), from `createSummarizedEdgeStates`
of `src/composables/state.ts`.  JavaScript records are modelled as
association lists with distinct keys, preserving insertion order, so
that `Object.entries` / `Object.keys` iteration is the list itself.
The edge group record (from the missing `common/edge-group.ts`) is
modelled abstractly by its `summarize` flag and an opaque payload,
and the construction of a fresh summarized state (the `computed`
stroke) by an abstract function `mk`.
-/

/-- An edge group as far as `createSummarizedEdgeStates` inspects it:
the `summarize` flag and the data a fresh state is built from. -/
structure EdgeGroup (β : Type) where
  summarize : Bool
  edges : β

/-- The deletion predicate of the second pass of
`createSummarizedEdgeStates`: an entry is kept iff its group still
exists and is still summarized (`edgeGroupStates.edgeGroups[id]?.summarize`). -/
def summarizeKept {β : Type} (groups : List (String × EdgeGroup β)) (k : String) :
    Bool :=
  match List.lookup k groups with
  | some g => g.summarize
  | none => false

/-- The `createSummarizedEdgeStates` maintenance run: first, for every
group that is summarized and has no existing entry, append a fresh
state; then delete every entry whose group no longer exists or is no
longer summarized. -/
def createSummarizedEdgeStates {α β : Type} (states : List (String × α))
    (groups : List (String × EdgeGroup β)) (mk : EdgeGroup β → α) :
    List (String × α) :=
  (states ++
    ((groups.filter
        (fun g => g.2.summarize && (List.lookup g.1 states).isNone)).map
      (fun g => (g.1, mk g.2)))).filter
    (fun s => summarizeKept groups s.1)

theorem lookup_filter_key {α : Type} (l : List (String × α)) (p : String → Bool)
    (k : String) :
    List.lookup k (l.filter (fun s => p s.1))
      = if p k then List.lookup k l else none := by
  induction l with
  | nil => simp
  | cons a l ih =>
      by_cases hk : k = a.1
      · have hbeq : (k == a.1) = true := by simpa [beq_iff_eq] using hk
        by_cases hp : p a.1
        · have hpk : p k = true := by rw [hk]; exact hp
          rw [List.filter_cons, if_pos hp, if_pos hpk]
          simp [List.lookup, hbeq]
        · have hpk : ¬ p k = true := by rw [hk]; exact hp
          rw [List.filter_cons, if_neg hp, ih, if_neg hpk, if_neg hpk]
      · have hbeq : (k == a.1) = false := by simpa [beq_iff_eq] using hk
        by_cases hp : p a.1
        · simp [List.filter_cons, hp, List.lookup, hbeq, ih]
        · simp [List.filter_cons, hp, List.lookup, hbeq, ih]

theorem lookup_append {α : Type} (l1 l2 : List (String × α)) (k : String) :
    List.lookup k (l1 ++ l2)
      = match List.lookup k l1 with
        | some v => some v
        | none => List.lookup k l2 := by
  induction l1 with
  | nil => simp
  | cons a l ih =>
      by_cases hk : k = a.1
      · have hbeq : (k == a.1) = true := by simpa [beq_iff_eq] using hk
        simp [List.lookup, hbeq]
      · have hbeq : (k == a.1) = false := by simpa [beq_iff_eq] using hk
        simp [List.lookup, hbeq, ih]

theorem lookup_map_value {α β : Type} (l : List (String × α)) (f : α → β)
    (k : String) :
    List.lookup k (l.map (fun g => (g.1, f g.2))) = (List.lookup k l).map f := by
  induction l with
  | nil => simp
  | cons a l ih =>
      by_cases hk : k = a.1
      · have hbeq : (k == a.1) = true := by simpa [beq_iff_eq] using hk
        simp [List.lookup, hbeq]
      · have hbeq : (k == a.1) = false := by simpa [beq_iff_eq] using hk
        simp [List.lookup, hbeq, ih]

theorem lookup_eq_none_of_not_mem {α : Type} (l : List (String × α)) (k : String)
    (h : k ∉ l.map Prod.fst) : List.lookup k l = none := by
  induction l with
  | nil => rfl
  | cons a l ih =>
      have hk : k ≠ a.1 := by
        intro hc; exact h (by simp [hc])
      have hbeq : (k == a.1) = false := by simpa [beq_iff_eq] using hk
      have h2 : k ∉ l.map Prod.fst := fun hc => h (by simp [hc])
      simp [List.lookup, hbeq, ih h2]

theorem lookup_filter_nodup {α : Type} (l : List (String × α))
    (q : String × α → Bool) (k : String) (hl : (l.map Prod.fst).Nodup) :
    List.lookup k (l.filter q)
      = match List.lookup k l with
        | some v => if q (k, v) then some v else none
        | none => none := by
  induction l with
  | nil => simp
  | cons a l ih =>
      have hl2 : (l.map Prod.fst).Nodup := (List.nodup_cons.mp hl).2
      have ha : a.1 ∉ l.map Prod.fst := (List.nodup_cons.mp hl).1
      by_cases hk : k = a.1
      · have hbeq : (k == a.1) = true := by simpa [beq_iff_eq] using hk
        have hnone : List.lookup k l = none := by
          rw [hk]; exact lookup_eq_none_of_not_mem l a.1 ha
        have hfil : List.lookup k (l.filter q) = none := by
          rw [ih hl2, hnone]
        by_cases hq : q a
        · have hqa : q (k, a.2) = true := by
            have he : (k, a.2) = a := by rw [hk]
            rw [he]; exact hq
          simp [List.filter_cons, hq, List.lookup, hbeq, hqa]
        · have hqa : q (k, a.2) = false := by
            have he : (k, a.2) = a := by rw [hk]
            rw [he]; simpa using hq
          simp [List.filter_cons, hq, List.lookup, hbeq, hqa, hfil]
      · have hbeq : (k == a.1) = false := by simpa [beq_iff_eq] using hk
        by_cases hq : q a
        · simp [List.filter_cons, hq, List.lookup, hbeq, ih hl2]
        · simp [List.filter_cons, hq, List.lookup, hbeq, ih hl2]

/-- Claim C10: after a maintenance run, an identifier has an entry iff
its group exists with the summarize flag set; an entry of a group that
remains summarized keeps its previous value, and a newly summarized
group receives a freshly built value. -/
theorem c10_summarized_edge_states {α β : Type} (states : List (String × α))
    (groups : List (String × EdgeGroup β)) (mk : EdgeGroup β → α)
    (hg : (groups.map Prod.fst).Nodup) (k : String) :
    List.lookup k (createSummarizedEdgeStates states groups mk)
      = match List.lookup k groups with
        | some g =>
            if g.summarize then
              some ((List.lookup k states).getD (mk g))
            else none
        | none => none := by
  unfold createSummarizedEdgeStates
  rw [lookup_filter_key]
  rw [lookup_append]
  rw [lookup_map_value]
  rw [lookup_filter_nodup groups _ k hg]
  cases hgr : List.lookup k groups with
  | none => simp [summarizeKept, hgr]
  | some g =>
      by_cases hs : g.summarize
      · cases hst : List.lookup k states with
        | none => simp [summarizeKept, hgr, hs, hst]
        | some v => simp [summarizeKept, hgr, hs, hst]
      · simp [summarizeKept, hgr, hs]

theorem c10_summarized_edge_states_witness :
    List.lookup "g1"
        (createSummarizedEdgeStates [("g1", (0 : ℕ))]
          [("g1", { summarize := true, edges := () }),
            ("g2", { summarize := true, edges := () }),
            ("g3", { summarize := false, edges := () })] (fun _ => 7))
      = some 0 := by
  have h := c10_summarized_edge_states [("g1", (0 : ℕ))]
    [("g1", { summarize := true, edges := () }),
      ("g2", { summarize := true, edges := () }),
      ("g3", { summarize := false, edges := () })] (fun _ => 7) (by decide) "g1"
  rw [h]
  decide

/-!
Real-valued geometry.  The functions of the missing modules
`common/vector.ts` and `common/2d.ts` are modelled from the
specification (section 4.1); everything from `state.ts` onwards is a
transcription of the source.
-/

/-- Modelled from the spec: the two argument arctangent underlying
`relativeAngle`: the signed angle of the point `(x, y)` in `(-π, π]`. -/
noncomputable def atan2 (y x : ℝ) : ℝ :=
  if 0 < x then Real.arctan (y / x)
  else if x < 0 then
    (if 0 ≤ y then Real.arctan (y / x) + Real.pi else Real.arctan (y / x) - Real.pi)
  else if 0 < y then Real.pi / 2
  else if y < 0 then -(Real.pi / 2)
  else 0

/-- Modelled from the spec: `relativeAngle` alias
`V.calculateRelativeAngleRadian` (missing `common/vector.ts`): the
signed angle in `(-π, π]` rotating the first vector onto the second. -/
noncomputable def calculateRelativeAngleRadian (a b : Vec2) : ℝ :=
  atan2 (cross a b) (dot a b)

/-- Modelled from the spec: `v2d.moveOnCircumference` (missing
`common/2d.ts`): rotate a point about a center by a signed angle. -/
noncomputable def moveOnCircumference (p c : Vec2) (rad : ℝ) : Vec2 :=
  ⟨c.x + ((p.x - c.x) * Real.cos rad - (p.y - c.y) * Real.sin rad),
   c.y + ((p.x - c.x) * Real.sin rad + (p.y - c.y) * Real.cos rad)⟩

/-- Modelled from the spec: `v2d.reverseAngleRadian` (missing
`common/2d.ts`): the same rotation written with the opposite sign. -/
noncomputable def reverseAngleRadian (t : ℝ) : ℝ :=
  if 0 < t then t - 2 * Real.pi else t + 2 * Real.pi

/-- Modelled from the spec: `v2d.applyMarginToLine` (missing
`common/2d.ts`): move each end point of the line inward along the
line direction by the corresponding margin. -/
noncomputable def applyMarginToLine (lp : LinePosition)
    (sourceMargin targetMargin : ℝ) : LinePosition :=
  let l := fromLinePosition lp
  let u := normalize l.v
  positionsToLinePosition (vadd l.source (smul sourceMargin u))
    (vsub l.target (smul targetMargin u))

/-- Modelled from the spec: `circleFrom3Points` alias
`V.calculateCircleCenterAndRadiusBy3Points` (missing
`common/vector.ts`): the circumcircle of three points.  Collinear
input is a precondition violation; the real division by zero then
yields a degenerate result, corresponding to the non-finite numbers
the source would produce. -/
noncomputable def calculateCircleCenterAndRadiusBy3Points (p1 p2 p3 : Vec2) :
    Vec2 × ℝ :=
  let d := 2 * (p1.x * (p2.y - p3.y) + p2.x * (p3.y - p1.y) + p3.x * (p1.y - p2.y))
  let ux := ((p1.x ^ 2 + p1.y ^ 2) * (p2.y - p3.y) + (p2.x ^ 2 + p2.y ^ 2) * (p3.y - p1.y)
      + (p3.x ^ 2 + p3.y ^ 2) * (p1.y - p2.y)) / d
  let uy := ((p1.x ^ 2 + p1.y ^ 2) * (p3.x - p2.x) + (p2.x ^ 2 + p2.y ^ 2) * (p1.x - p3.x)
      + (p3.x ^ 2 + p3.y ^ 2) * (p2.x - p1.x)) / d
  (⟨ux, uy⟩, calculateDistance ⟨ux, uy⟩ p1)

/-- Modelled from the spec: `bezierControlPoints` alias
`v2d.calculateBezierCurveControlPoint` (missing `common/2d.ts`): two
cubic Bezier control points approximating the arc from `p1` to `p2`
on the circle centered at `center`, placed along the tangent
directions with a distance proportional to the magnitude of the
signed angle `theta0`. -/
noncomputable def calculateBezierCurveControlPoint (p1 center p2 : Vec2)
    (theta0 : ℝ) : List Vec2 :=
  let s := if 0 < theta0 then (1 : ℝ) else -1
  let r1 := vsub p1 center
  let r2 := vsub p2 center
  let t1 : Vec2 := ⟨-r1.y, r1.x⟩
  let t2 : Vec2 := ⟨r2.y, -r2.x⟩
  [vadd p1 (smul (4 / 3 * |theta0| * s) (normalize t1)),
   vadd p2 (smul (4 / 3 * |theta0| * s) (normalize t2))]

/-- Modelled from the spec: `intersectLineCircle` alias
`V.getIntersectionOfLineTargetAndCircle` (missing
`common/vector.ts`): the intersection of the segment from `s` to `t`
with a circle, choosing the solution nearest the `s` side; `none`
when the segment does not meet the circle. -/
noncomputable def getIntersectionOfLineTargetAndCircle (s t c : Vec2) (r : ℝ) :
    Option Vec2 :=
  let d := vsub t s
  let f := vsub s c
  let qa := dot d d
  if qa = 0 then none
  else
    let qb := 2 * dot f d
    let qc := dot f f - r ^ 2
    let disc := qb ^ 2 - 4 * qa * qc
    if disc < 0 then none
    else
      let t1 := (-qb - Real.sqrt disc) / (2 * qa)
      let t2 := (-qb + Real.sqrt disc) / (2 * qa)
      if 0 ≤ t1 ∧ t1 ≤ 1 then some (vadd s (smul t1 d))
      else if 0 ≤ t2 ∧ t2 ≤ 1 then some (vadd s (smul t2 d))
      else none

/-- Modelled from the spec: the variant of the line-circle
intersection biased toward the far (exit side) intersection
(`V.getIntersectionOfLineTargetAndCircle2`, missing
`common/vector.ts`): of the segment solutions, the one nearer the
bias point is returned. -/
noncomputable def getIntersectionOfLineTargetAndCircle2 (s t c : Vec2) (r : ℝ)
    (near : Vec2) : Option Vec2 :=
  let d := vsub t s
  let f := vsub s c
  let qa := dot d d
  if qa = 0 then none
  else
    let qb := 2 * dot f d
    let qc := dot f f - r ^ 2
    let disc := qb ^ 2 - 4 * qa * qc
    if disc < 0 then none
    else
      let t1 := (-qb - Real.sqrt disc) / (2 * qa)
      let t2 := (-qb + Real.sqrt disc) / (2 * qa)
      let p1 := if 0 ≤ t1 ∧ t1 ≤ 1 then some (vadd s (smul t1 d)) else none
      let p2 := if 0 ≤ t2 ∧ t2 ≤ 1 then some (vadd s (smul t2 d)) else none
      match p1, p2 with
      | some p, some q =>
          if calculateDistance q near < calculateDistance p near then some q else some p
      | some p, none => some p
      | none, some q => some q
      | none, none => none

/-- Modelled from the spec: `intersectCircles` alias
`V.getIntersectionOfCircles` (missing `common/vector.ts`): one of up
to two intersection points of two circles, deterministically the one
nearer the bias point (the positively oriented one on a tie); `none`
when the circles do not properly intersect, tangency included. -/
noncomputable def getIntersectionOfCircles (c1 : Vec2) (r1 : ℝ) (c2 : Vec2)
    (r2 : ℝ) (near : Vec2) : Option Vec2 :=
  let d := calculateDistance c1 c2
  if d = 0 then none
  else if r1 + r2 ≤ d then none
  else if d ≤ |r1 - r2| then none
  else
    let a := (r1 ^ 2 - r2 ^ 2 + d ^ 2) / (2 * d)
    let h := Real.sqrt (r1 ^ 2 - a ^ 2)
    let u := smul (1 / d) (vsub c2 c1)
    let m := vadd c1 (smul a u)
    let p := vadd m (smul h ⟨-u.y, u.x⟩)
    let q := vsub m (smul h ⟨-u.y, u.x⟩)
    if calculateDistance q near < calculateDistance p near then some q else some p

/-- Modelled from the spec: `intersectLines` alias
`V.getIntersectionPointOfLines` (missing `common/vector.ts`): the
intersection point of two infinite lines, `none` when parallel. -/
noncomputable def getIntersectionPointOfLines (l1 l2 : Line) : Option Vec2 :=
  let den := cross l1.v l2.v
  if den = 0 then none
  else some (vadd l1.source (smul (cross (vsub l2.source l1.source) l2.v / den) l1.v))

/-- The `EdgeLayoutPoint` data of the edge grouping: the lateral slot
of the edge within its group and the total group width. -/
structure EdgeLayoutPoint where
  pointInGroup : ℝ
  groupWidth : ℝ

/-- Modelled from the spec: `EdgeGroup.calculateEdgeShiftedPosition`
(missing `common/edge-group.ts`): the center-to-center line displaced
laterally, perpendicular to the source-to-target direction, by the
group shift `groupWidth / 2 - pointInGroup` scaled by the zoom scale;
a summarized edge is drawn on the center line.  The `keepOrder`
configuration only selects the displacement side and is not modelled. -/
noncomputable def calculateEdgeShiftedPosition (p : EdgeLayoutPoint)
    (isSummarized : Bool) (source target : Vec2) (scale : ℝ) : LinePosition :=
  let shift := if isSummarized then 0 else p.groupWidth / 2 - p.pointInGroup
  let n := normalize ⟨-(target.y - source.y), target.x - source.x⟩
  positionsToLinePosition (vadd source (smul (shift * scale) n))
    (vadd target (smul (shift * scale) n))

/-!
The curve geometry of `state.ts` (`calculateCurvePositionAndState`,
lines 540 to 635), transcribed from the source.
-/

/-- The circle record inside the `Curve` descriptor of `state.ts`. -/
structure CircleDesc where
  center : Vec2
  radius : ℝ

/-- The `Curve` descriptor of `state.ts`: the shifted midpoint, the
signed source-to-center angle, the circle of the arc, and the two
Bezier control points. -/
structure Curve where
  center : Vec2
  theta : ℝ
  circle : CircleDesc
  control : List Vec2

/-- The margin application of `calculateCurvePositionAndState` (lines
585 to 596 of `state.ts`): each end point of the display line is the
point on the circumference moved by the margin from the origin end
point, in the direction opposite to the sign of `theta0`. -/
noncomputable def curveMarginPosition (originPosition shiftedPosition : LinePosition)
    (sourceMargin targetMargin : ℝ) : LinePosition :=
  let origin := fromLinePosition originPosition
  let shiftedCenter := getCenterOfLinePosition shiftedPosition
  let c3 := calculateCircleCenterAndRadiusBy3Points origin.source origin.target shiftedCenter
  let center := c3.1
  let radius := c3.2
  let centerToTop := fromVectors center shiftedCenter
  let theta0 := calculateRelativeAngleRadian (fromVectors center origin.source) centerToTop
  let sourceMoveRad := if 0 < theta0 then -(sourceMargin / radius) else sourceMargin / radius
  let targetMoveRad := if 0 < theta0 then -(targetMargin / radius) else targetMargin / radius
  positionsToLinePosition (moveOnCircumference origin.source center sourceMoveRad)
    (moveOnCircumference origin.target center (-targetMoveRad))

/-- The degenerate endpoint-reversal test of
`calculateCurvePositionAndState` (lines 598 to 614 of `state.ts`):
after applying the margins, the angular order of the two end points
around the circle center (theta2, with theta1 the un-margined order,
both reversed when their sign disagrees with `theta0`) has changed
sign. -/
noncomputable def curveMarginReversed (originPosition shiftedPosition : LinePosition)
    (sourceMargin targetMargin : ℝ) : Prop :=
  let origin := fromLinePosition originPosition
  let shiftedCenter := getCenterOfLinePosition shiftedPosition
  let c3 := calculateCircleCenterAndRadiusBy3Points origin.source origin.target shiftedCenter
  let center := c3.1
  let centerToTop := fromVectors center shiftedCenter
  let theta0 := calculateRelativeAngleRadian (fromVectors center origin.source) centerToTop
  let position := curveMarginPosition originPosition shiftedPosition sourceMargin targetMargin
  let theta1 := calculateRelativeAngleRadian (fromVectors center origin.source)
    (fromVectors center origin.target)
  let theta2 := calculateRelativeAngleRadian
    (fromPositions center ⟨position.x1, position.y1⟩)
    (fromPositions center ⟨position.x2, position.y2⟩)
  let theta1r := if theta0 * theta1 < 0 then reverseAngleRadian theta1 else theta1
  let theta2r := if theta0 * theta1 < 0 ∧ theta0 * theta2 < 0
    then reverseAngleRadian theta2 else theta2
  theta1r * theta2r < 0

noncomputable instance curveMarginReversedDec (o s : LinePosition) (sm tm : ℝ) :
    Decidable (curveMarginReversed o s sm tm) := by
  unfold curveMarginReversed
  exact Real.decidableLT _ _

/-- The tail of `calculateCurvePositionAndState` (lines 622 to 634 of
`state.ts`): the Bezier control points are computed and the `Curve`
descriptor assembled. -/
noncomputable def curveFinish (position : LinePosition) (center : Vec2)
    (radius theta0 : ℝ) (shiftedCenter : Vec2) : LinePosition × Option Curve :=
  let p := toVectorsFromLinePosition position
  let control := calculateBezierCurveControlPoint p.1 center p.2 theta0
  (position,
    some { center := shiftedCenter, theta := theta0,
           circle := { center := center, radius := radius }, control := control })

/-- The `calculateCurvePositionAndState` function of `state.ts` (lines
540 to 635): the display line and optional curve descriptor of a
curve-type edge.  The circumcircle through the origin end points and
the shifted midpoint is computed unconditionally, before the
`shift = 0` test, exactly as in the source. -/
noncomputable def calculateCurvePositionAndState
    (originPosition shiftedPosition : LinePosition)
    (shift sourceMargin targetMargin : ℝ) : LinePosition × Option Curve :=
  let origin := fromLinePosition originPosition
  let shifted := fromLinePosition shiftedPosition
  let shiftedCenter := getCenterOfLinePosition shiftedPosition
  let c3 := calculateCircleCenterAndRadiusBy3Points origin.source origin.target shiftedCenter
  let center := c3.1
  let radius := c3.2
  if shift = 0 then
    (if sourceMargin = 0 ∧ targetMargin = 0 then originPosition
     else applyMarginToLine originPosition sourceMargin targetMargin, none)
  else
    let centerToTop := fromVectors center shiftedCenter
    let theta0 := calculateRelativeAngleRadian (fromVectors center origin.source) centerToTop
    if sourceMargin = 0 ∧ targetMargin = 0 then
      curveFinish originPosition center radius theta0 shiftedCenter
    else if curveMarginReversed originPosition shiftedPosition sourceMargin targetMargin then
      -- the end points were swapped by the margins: a short line at the center
      let c := vadd shiftedCenter (smul (1 / 2) (normalize shifted.v))
      (positionsToLinePosition shiftedCenter c, none)
    else
      curveFinish (curveMarginPosition originPosition shiftedPosition sourceMargin targetMargin)
        center radius theta0 shiftedCenter

/-!
Configuration model, from `common/configs.ts` (part of the sources),
restricted to the fields the geometry computation reads.
-/

/-- The `EdgeHeadType` of `common/configs.ts`. -/
inductive EdgeHeadType where
  | none
  | arrow
  | angle
  | circle
  | custom
deriving DecidableEq

/-- The `MarkerUnits` of `common/configs.ts`. -/
inductive MarkerUnits where
  | strokeWidth
  | userSpaceOnUse
deriving DecidableEq

/-- The `MarkerStyle` of `common/configs.ts` (the color does not enter
the geometry). -/
structure MarkerStyle where
  type : EdgeHeadType
  width : ℝ
  height : ℝ
  margin : ℝ
  units : MarkerUnits

/-- The `Line` record of `state.ts` (stroke style, normal stroke
width, and the two resolved markers); the stroke color does not enter
the geometry. -/
structure EdgeStyleLine where
  normalWidth : ℝ
  source : MarkerStyle
  target : MarkerStyle

/-- The `EdgeType` of `common/configs.ts`. -/
inductive EdgeType where
  | straight
  | curve
deriving DecidableEq

/-- The geometry-relevant part of the `EdgeConfig` of
`common/configs.ts`: the edge type and the optional extra margin
(`null` is `Option.none`). -/
structure EdgeConfig where
  type : EdgeType
  margin : Option ℝ

/-- The `ShapeType` of `common/configs.ts`. -/
inductive ShapeType where
  | circle
  | rect
deriving DecidableEq

/-- The `ShapeStyle` of `common/configs.ts`: as in the source, a
single record carrying the fields of both shapes, with `type`
selecting the interpretation. -/
structure ShapeStyle where
  type : ShapeType
  radius : ℝ
  width : ℝ
  height : ℝ

/-- Modelled from the spec: the per-node half of
`v2d.calculateDistancesFromCenterOfNodeToEndOfNode` (missing
`common/2d.ts`): the distance from the node center to the shape
boundary along the direction towards the other node — the radius for
a circle, the axis-aligned boundary crossing for a rectangle. -/
noncomputable def shapeBoundaryDistance (source target : Vec2) (shape : ShapeStyle) : ℝ :=
  match shape.type with
  | ShapeType.circle => shape.radius
  | ShapeType.rect =>
      let u := normalize (vsub target source)
      if u.x = 0 then shape.height / 2
      else if u.y = 0 then shape.width / 2
      else min (shape.width / 2 / |u.x|) (shape.height / 2 / |u.y|)

/-- Modelled from the spec:
`v2d.calculateDistancesFromCenterOfNodeToEndOfNode` (missing
`common/2d.ts`), the pair of shape margins of the two end nodes. -/
noncomputable def calculateDistancesFromCenterOfNodeToEndOfNode
    (source target : Vec2) (sourceShape targetShape : ShapeStyle) : ℝ × ℝ :=
  (shapeBoundaryDistance source target sourceShape,
   shapeBoundaryDistance target source targetShape)

/-- The marker part of the margin computation of `createEdgeState`
(lines 461 to 477 of `state.ts`). -/
def markerMargin (m : MarkerStyle) (normalWidth : ℝ) : ℝ :=
  if m.type = EdgeHeadType.none then 0
  else (m.margin + m.width) * (if m.units = MarkerUnits.strokeWidth then normalWidth else 1)

/-- The margin computation of `createEdgeState` (lines 461 to 487 of
`state.ts`): marker margins plus, depending on the `margin`
configuration, the shape margins. -/
def edgeMargins (line : EdgeStyleLine) (config : EdgeConfig)
    (sourceShapeMargin targetShapeMargin : ℝ) : ℝ × ℝ :=
  let sourceMargin := markerMargin line.source line.normalWidth
  let targetMargin := markerMargin line.target line.normalWidth
  match config.margin with
  | Option.none =>
      if line.source.type ≠ EdgeHeadType.none ∨ line.target.type ≠ EdgeHeadType.none then
        (sourceMargin + sourceShapeMargin, targetMargin + targetShapeMargin)
      else (sourceMargin, targetMargin)
  | Option.some m =>
      (sourceMargin + m + sourceShapeMargin, targetMargin + m + targetShapeMargin)

/-- The geometry fields of `EdgeStateDatum` updated by the
`watchEffect` of `createEdgeState`. -/
structure EdgeGeometryState where
  origin : LinePosition
  labelPosition : LinePosition
  position : LinePosition
  curve : Option Curve

/-- The geometry computation of the `watchEffect` of `createEdgeState`
(lines 438 to 513 of `state.ts`), for present inputs: the shifted
line, the label position, the margins, and the type-dependent display
line and curve. -/
noncomputable def computeEdgeGeometry (source target : Vec2)
    (sourceShape targetShape : ShapeStyle) (elp : EdgeLayoutPoint)
    (isSummarized : Bool) (line : EdgeStyleLine) (config : EdgeConfig)
    (scale : ℝ) : EdgeGeometryState :=
  let shiftedPosition := calculateEdgeShiftedPosition elp isSummarized source target scale
  let sm := calculateDistancesFromCenterOfNodeToEndOfNode source target sourceShape targetShape
  let s := scale
  let labelPosition := applyMarginToLine shiftedPosition (sm.1 * s) (sm.2 * s)
  let margins := edgeMargins line config sm.1 sm.2
  let sourceMargin := margins.1
  let targetMargin := margins.2
  match config.type with
  | EdgeType.straight =>
      let origin := shiftedPosition
      let position := if sourceMargin = 0 ∧ targetMargin = 0 then origin
        else applyMarginToLine origin (sourceMargin * s) (targetMargin * s)
      { origin := origin, labelPosition := labelPosition, position := position,
        curve := Option.none }
  | EdgeType.curve =>
      let origin := positionsToLinePosition source target
      let shift := elp.groupWidth / 2 - elp.pointInGroup
      let pc := calculateCurvePositionAndState origin shiftedPosition shift
        (sourceMargin * s) (targetMargin * s)
      { origin := origin, labelPosition := labelPosition, position := pc.1,
        curve := pc.2 }

/-- The `watchEffect` body of `createEdgeState` (lines 425 to 514 of
`state.ts`): when the edge, either end point position, or either end
point static shape is missing, the previous state is returned
unchanged; otherwise the geometry is recomputed. -/
noncomputable def updateEdgeGeometry (edges : String → Option Edge)
    (layouts : String → Option Vec2) (staticShapes : String → Option ShapeStyle)
    (edgeId : String) (elp : EdgeLayoutPoint) (isSummarized : Bool)
    (line : EdgeStyleLine) (config : EdgeConfig) (scale : ℝ)
    (st : EdgeGeometryState) : EdgeGeometryState :=
  match edges edgeId with
  | Option.none => st
  | Option.some edge =>
      match layouts edge.source, layouts edge.target,
          staticShapes edge.source, staticShapes edge.target with
      | Option.some source, Option.some target,
          Option.some sourceShape, Option.some targetShape =>
          computeEdgeGeometry source target sourceShape targetShape elp isSummarized
            line config scale
      | _, _, _, _ => st

/-!
Node states (claim C9), from `createNodeState` of `state.ts` and the
configuration model of `common/configs.ts`.
-/

/-- Callable-or-literal configuration values, the `CallableValue` of
`common/configs.ts`. -/
inductive CallableValue (V T : Type) where
  | literal (v : V)
  | derived (f : T → V)

/-- `Config.value` of `common/configs.ts`: resolve a
callable-or-literal value at a target. -/
def Config.value {V T : Type} : CallableValue V T → T → V
  | CallableValue.literal v, _ => v
  | CallableValue.derived f, t => f t

/-- A node as the node-state computations see it: the open property
bag, consulted by `labelText` under the resolved text key. -/
structure Node where
  props : String → Option String

/-- The resolved `NodeLabelStyle` of `common/configs.ts` (restricted
to the fields the state computations read). -/
structure NodeLabelStyle where
  visible : Bool
  margin : ℝ
  text : String

/-- The label part of the node configuration, with per-field
callable-or-literal values as in `CallableValues`; `labelText` tests
the `text` field for being a function. -/
structure NodeLabelConfig where
  visible : CallableValue Bool Node
  margin : CallableValue ℝ Node
  text : CallableValue String Node

/-- `Config.values` applied to the label configuration: per-field
resolution. -/
def resolveNodeLabel (c : NodeLabelConfig) (n : Node) : NodeLabelStyle :=
  { visible := Config.value c.visible n,
    margin := Config.value c.margin n,
    text := Config.value c.text n }

/-- The `NodeConfig` of `common/configs.ts`, with the shape styles in
resolved form (`Config.values` applied); `hover` and `selected` are
optional as in the source. -/
structure NodeConfig where
  normal : Node → ShapeStyle
  hover : Option (Node → ShapeStyle)
  selected : Option (Node → ShapeStyle)
  draggable : CallableValue Bool Node
  selectable : CallableValue (Bool ⊕ ℤ) Node
  label : NodeLabelConfig

/-- `getNodeStaticShape` of `state.ts`: the selected style when
selected and configured, the normal style otherwise. -/
def getNodeStaticShape (node : Node) (selected : Bool) (config : NodeConfig) :
    ShapeStyle :=
  match selected, config.selected with
  | true, Option.some f => f node
  | _, _ => config.normal node

/-- `getNodeShape` of `state.ts`: the hover style when hovered and
configured, the static shape otherwise. -/
def getNodeShape (node : Node) (selected hovered : Bool) (config : NodeConfig) :
    ShapeStyle :=
  match hovered, config.hover with
  | true, Option.some f => f node
  | _, _ => getNodeStaticShape node selected config

/-- The cached values of the computed properties of a `NodeState`
(`NodeStateDatum` of `state.ts`). -/
structure NodeState where
  shape : ShapeStyle
  staticShape : ShapeStyle
  label : NodeLabelStyle
  labelText : String
  selected : Bool
  hovered : Bool
  draggable : Bool
  selectable : Bool ⊕ ℤ

/-- One joint re-evaluation of the computed properties installed by
`createNodeState` (lines 340 to 373 of `state.ts`).  Each computed
returns its previous (cached) value when the node is missing from the
topology.  `labelText` first inspects the configured text: a
function-valued configuration reads the freshly computed label text
without consulting the topology, a literal one consults the property
bag of the node under the resolved text key (empty string when
absent), returning the previous value when the node is missing. -/
def recomputeNodeState (nodes : String → Option Node) (nid : String)
    (config : NodeConfig) (st : NodeState) : NodeState :=
  let shape := match nodes nid with
    | Option.none => st.shape
    | Option.some n => getNodeShape n st.selected st.hovered config
  let staticShape := match nodes nid with
    | Option.none => st.staticShape
    | Option.some n => getNodeStaticShape n st.selected config
  let label := match nodes nid with
    | Option.none => st.label
    | Option.some n => resolveNodeLabel config.label n
  let labelText := match config.label.text with
    | CallableValue.derived _ => label.text
    | CallableValue.literal _ =>
        match nodes nid with
        | Option.none => st.labelText
        | Option.some n => (n.props label.text).getD ""
  let draggable := match nodes nid with
    | Option.none => st.draggable
    | Option.some n => Config.value config.draggable n
  let selectable := match nodes nid with
    | Option.none => st.selectable
    | Option.some n => Config.value config.selectable n
  { st with
    shape := shape
    staticShape := staticShape
    label := label
    labelText := labelText
    draggable := draggable
    selectable := selectable }

/-- Claim C9: derived state retains its previous cached value when the
referenced entity is missing.  For a missing node every computed of
the node state returns its previous value (for `labelText` under a
function-valued text configuration this uses the reactive invariant
that the cached text equals the cached label text); for an edge whose
edge record, end point position, or end point static shape is missing,
the geometry recomputation leaves the state unchanged. -/
theorem c9_missing_entity_retains_state :
    (∀ (nodes : String → Option Node) (nid : String) (config : NodeConfig)
        (st : NodeState),
      nodes nid = Option.none →
      (∀ f, config.label.text = CallableValue.derived f →
        st.labelText = st.label.text) →
      recomputeNodeState nodes nid config st = st)
    ∧ (∀ (edges : String → Option Edge) (layouts : String → Option Vec2)
        (staticShapes : String → Option ShapeStyle) (edgeId : String)
        (elp : EdgeLayoutPoint) (isSummarized : Bool) (line : EdgeStyleLine)
        (config : EdgeConfig) (scale : ℝ) (st : EdgeGeometryState),
      (edges edgeId = Option.none
        ∨ ∃ edge, edges edgeId = Option.some edge
            ∧ (layouts edge.source = Option.none ∨ layouts edge.target = Option.none
                ∨ staticShapes edge.source = Option.none
                ∨ staticShapes edge.target = Option.none)) →
      updateEdgeGeometry edges layouts staticShapes edgeId elp isSummarized line
        config scale st = st) := by
  constructor
  · intro nodes nid config st hmiss hlab
    cases st with
    | mk shape staticShape label labelText selected hovered draggable selectable =>
        unfold recomputeNodeState
        rw [hmiss]
        cases htext : config.label.text with
        | literal v => rfl
        | derived f =>
            have hl := hlab f htext
            simp only at hl
            simp only [hl]
  · intro edges layouts staticShapes edgeId elp isSummarized line config scale st h
    unfold updateEdgeGeometry
    rcases h with hnone | ⟨edge, hsome, hmiss⟩
    · rw [hnone]
    · rw [hsome]
      cases hls : layouts edge.source <;> cases hlt : layouts edge.target <;>
        cases hss : staticShapes edge.source <;> cases hst : staticShapes edge.target <;>
        simp only [hls, hlt, hss, hst] <;>
        rcases hmiss with h1 | h1 | h1 | h1 <;> simp_all

/-- Concrete node configuration for the witness of claim C9. -/
def c9ExampleConfig : NodeConfig :=
  { normal := fun _ => { type := ShapeType.circle, radius := 16, width := 32, height := 32 },
    hover := Option.none, selected := Option.none,
    draggable := CallableValue.literal true,
    selectable := CallableValue.literal (Sum.inl true),
    label := { visible := CallableValue.literal true,
               margin := CallableValue.literal 4,
               text := CallableValue.literal "name" } }

/-- Concrete cached node state for the witness of claim C9. -/
def c9ExampleState : NodeState :=
  { shape := { type := ShapeType.circle, radius := 16, width := 32, height := 32 },
    staticShape := { type := ShapeType.circle, radius := 16, width := 32, height := 32 },
    label := { visible := true, margin := 4, text := "name" },
    labelText := "x", selected := false, hovered := false, draggable := true,
    selectable := Sum.inl true }

theorem c9_missing_entity_retains_state_witness :
    recomputeNodeState (fun _ => Option.none) "n1" c9ExampleConfig c9ExampleState
      = c9ExampleState :=
  c9_missing_entity_retains_state.1 (fun _ => Option.none) "n1" c9ExampleConfig
    c9ExampleState rfl (fun f hf => nomatch hf)

/-!
Properties of the curve computation (claims C2, C3, C8, C4).
-/

theorem fromLinePosition_positions (p q : Vec2) :
    fromLinePosition (positionsToLinePosition p q) = { source := p, target := q } :=
  rfl

theorem applyMarginToLine_zero (lp : LinePosition) :
    applyMarginToLine lp 0 0 = lp := by
  cases lp with
  | mk x1 y1 x2 y2 =>
      simp only [applyMarginToLine, fromLinePosition, positionsToLinePosition,
        vadd, vsub, smul]
      norm_num

theorem calculateEdgeShiftedPosition_zero (p : EdgeLayoutPoint) (isSummarized : Bool)
    (source target : Vec2) (scale : ℝ)
    (hshift : p.groupWidth / 2 - p.pointInGroup = 0) :
    calculateEdgeShiftedPosition p isSummarized source target scale
      = positionsToLinePosition source target := by
  unfold calculateEdgeShiftedPosition
  have h0 : (if isSummarized then 0 else p.groupWidth / 2 - p.pointInGroup) = (0 : ℝ) := by
    cases isSummarized <;> simp [hshift]
  rw [h0]
  simp only [positionsToLinePosition, vadd, smul]
  norm_num

/-- Claim C2: the `curve` field of an edge state is absent for a
straight-type edge; it is present only for a curve-type edge with
nonzero group shift whose margin application did not trigger the
degenerate endpoint-reversal branch, and it then carries the
circumcircle of the origin source, the origin target and the shifted
midpoint. -/
theorem c2_curve_state_invariant (source target : Vec2)
    (sourceShape targetShape : ShapeStyle) (elp : EdgeLayoutPoint)
    (isSummarized : Bool) (line : EdgeStyleLine) (config : EdgeConfig) (scale : ℝ) :
    (config.type = EdgeType.straight →
      (computeEdgeGeometry source target sourceShape targetShape elp isSummarized
          line config scale).curve = Option.none)
    ∧ ∀ c, (computeEdgeGeometry source target sourceShape targetShape elp isSummarized
          line config scale).curve = Option.some c →
        config.type = EdgeType.curve
        ∧ elp.groupWidth / 2 - elp.pointInGroup ≠ 0
        ∧ ¬ (¬ ((edgeMargins line config
                  (calculateDistancesFromCenterOfNodeToEndOfNode source target
                    sourceShape targetShape).1
                  (calculateDistancesFromCenterOfNodeToEndOfNode source target
                    sourceShape targetShape).2).1 * scale = 0
                ∧ (edgeMargins line config
                  (calculateDistancesFromCenterOfNodeToEndOfNode source target
                    sourceShape targetShape).1
                  (calculateDistancesFromCenterOfNodeToEndOfNode source target
                    sourceShape targetShape).2).2 * scale = 0)
            ∧ curveMarginReversed (positionsToLinePosition source target)
                (calculateEdgeShiftedPosition elp isSummarized source target scale)
                ((edgeMargins line config
                  (calculateDistancesFromCenterOfNodeToEndOfNode source target
                    sourceShape targetShape).1
                  (calculateDistancesFromCenterOfNodeToEndOfNode source target
                    sourceShape targetShape).2).1 * scale)
                ((edgeMargins line config
                  (calculateDistancesFromCenterOfNodeToEndOfNode source target
                    sourceShape targetShape).1
                  (calculateDistancesFromCenterOfNodeToEndOfNode source target
                    sourceShape targetShape).2).2 * scale))
        ∧ c.circle.center
            = (calculateCircleCenterAndRadiusBy3Points source target
                (getCenterOfLinePosition
                  (calculateEdgeShiftedPosition elp isSummarized source target scale))).1
        ∧ c.circle.radius
            = (calculateCircleCenterAndRadiusBy3Points source target
                (getCenterOfLinePosition
                  (calculateEdgeShiftedPosition elp isSummarized source target scale))).2 := by
  obtain ⟨ty, mar⟩ := config
  cases ty with
  | straight =>
      constructor
      · intro _
        rfl
      · intro c hc
        simp only [computeEdgeGeometry] at hc
        cases hc
  | curve =>
      constructor
      · intro h
        cases h
      · intro c hc
        simp only [computeEdgeGeometry, calculateCurvePositionAndState,
          fromLinePosition_positions] at hc
        by_cases h1 : elp.groupWidth / 2 - elp.pointInGroup = (0 : ℝ)
        · rw [if_pos h1] at hc
          cases hc
        · rw [if_neg h1] at hc
          by_cases h2 : (edgeMargins line { type := EdgeType.curve, margin := mar }
                (calculateDistancesFromCenterOfNodeToEndOfNode source target
                  sourceShape targetShape).1
                (calculateDistancesFromCenterOfNodeToEndOfNode source target
                  sourceShape targetShape).2).1 * scale = 0
              ∧ (edgeMargins line { type := EdgeType.curve, margin := mar }
                (calculateDistancesFromCenterOfNodeToEndOfNode source target
                  sourceShape targetShape).1
                (calculateDistancesFromCenterOfNodeToEndOfNode source target
                  sourceShape targetShape).2).2 * scale = 0
          · rw [if_pos h2] at hc
            simp only [curveFinish] at hc
            rw [Option.some_inj] at hc
            subst hc
            refine ⟨rfl, h1, ?_, rfl, rfl⟩
            intro hcon
            exact hcon.1 h2
          · rw [if_neg h2] at hc
            by_cases h3 : curveMarginReversed (positionsToLinePosition source target)
                (calculateEdgeShiftedPosition elp isSummarized source target scale)
                ((edgeMargins line { type := EdgeType.curve, margin := mar }
                  (calculateDistancesFromCenterOfNodeToEndOfNode source target
                    sourceShape targetShape).1
                  (calculateDistancesFromCenterOfNodeToEndOfNode source target
                    sourceShape targetShape).2).1 * scale)
                ((edgeMargins line { type := EdgeType.curve, margin := mar }
                  (calculateDistancesFromCenterOfNodeToEndOfNode source target
                    sourceShape targetShape).1
                  (calculateDistancesFromCenterOfNodeToEndOfNode source target
                    sourceShape targetShape).2).2 * scale)
            · rw [if_pos h3] at hc
              cases hc
            · rw [if_neg h3] at hc
              simp only [curveFinish] at hc
              rw [Option.some_inj] at hc
              subst hc
              refine ⟨rfl, h1, ?_, rfl, rfl⟩
              intro hcon
              exact h3 hcon.2

/-- The `NONE_MARKER` constant of `state.ts`. -/
def NONE_MARKER : MarkerStyle :=
  { type := EdgeHeadType.none, width := 0, height := 0, margin := 0,
    units := MarkerUnits.strokeWidth }

/-- A marker-free line style used by witnesses. -/
def exampleLine : EdgeStyleLine :=
  { normalWidth := 1, source := NONE_MARKER, target := NONE_MARKER }

/-- A circle shape used by witnesses. -/
def exampleShape : ShapeStyle :=
  { type := ShapeType.circle, radius := 16, width := 32, height := 32 }

theorem c2_curve_state_invariant_witness :
    (computeEdgeGeometry ⟨0, 0⟩ ⟨2, 0⟩ exampleShape exampleShape ⟨0, 0⟩ false
        exampleLine { type := EdgeType.straight, margin := Option.none } 1).curve
      = Option.none :=
  (c2_curve_state_invariant ⟨0, 0⟩ ⟨2, 0⟩ exampleShape exampleShape ⟨0, 0⟩ false
    exampleLine { type := EdgeType.straight, margin := Option.none } 1).1 rfl

/-- Claim C3: a curve-type edge whose group shift is zero behaves
exactly like a straight-type edge with the same inputs: the computed
position is the origin line with the scaled margins applied (the
origin line itself when they are zero) and the curve is absent, for
both configurations. -/
theorem c3_zero_shift_curve_equals_straight (source target : Vec2)
    (sourceShape targetShape : ShapeStyle) (elp : EdgeLayoutPoint)
    (isSummarized : Bool) (line : EdgeStyleLine) (mar : Option ℝ) (scale : ℝ)
    (hshift : elp.groupWidth / 2 - elp.pointInGroup = 0) :
    ((computeEdgeGeometry source target sourceShape targetShape elp isSummarized
        line { type := EdgeType.curve, margin := mar } scale).position
      = (computeEdgeGeometry source target sourceShape targetShape elp isSummarized
        line { type := EdgeType.straight, margin := mar } scale).position)
    ∧ (computeEdgeGeometry source target sourceShape targetShape elp isSummarized
        line { type := EdgeType.curve, margin := mar } scale).curve = Option.none
    ∧ (computeEdgeGeometry source target sourceShape targetShape elp isSummarized
        line { type := EdgeType.straight, margin := mar } scale).curve = Option.none
    ∧ (computeEdgeGeometry source target sourceShape targetShape elp isSummarized
        line { type := EdgeType.curve, margin := mar } scale).position
      = (if (edgeMargins line { type := EdgeType.curve, margin := mar }
              (calculateDistancesFromCenterOfNodeToEndOfNode source target
                sourceShape targetShape).1
              (calculateDistancesFromCenterOfNodeToEndOfNode source target
                sourceShape targetShape).2).1 * scale = 0
            ∧ (edgeMargins line { type := EdgeType.curve, margin := mar }
              (calculateDistancesFromCenterOfNodeToEndOfNode source target
                sourceShape targetShape).1
              (calculateDistancesFromCenterOfNodeToEndOfNode source target
                sourceShape targetShape).2).2 * scale = 0
          then positionsToLinePosition source target
          else applyMarginToLine (positionsToLinePosition source target)
            ((edgeMargins line { type := EdgeType.curve, margin := mar }
              (calculateDistancesFromCenterOfNodeToEndOfNode source target
                sourceShape targetShape).1
              (calculateDistancesFromCenterOfNodeToEndOfNode source target
                sourceShape targetShape).2).1 * scale)
            ((edgeMargins line { type := EdgeType.curve, margin := mar }
              (calculateDistancesFromCenterOfNodeToEndOfNode source target
                sourceShape targetShape).1
              (calculateDistancesFromCenterOfNodeToEndOfNode source target
                sourceShape targetShape).2).2 * scale)) := by
  have hsp := calculateEdgeShiftedPosition_zero elp isSummarized source target scale hshift
  have hm : edgeMargins line { type := EdgeType.curve, margin := mar }
        (calculateDistancesFromCenterOfNodeToEndOfNode source target
          sourceShape targetShape).1
        (calculateDistancesFromCenterOfNodeToEndOfNode source target
          sourceShape targetShape).2
      = edgeMargins line { type := EdgeType.straight, margin := mar }
        (calculateDistancesFromCenterOfNodeToEndOfNode source target
          sourceShape targetShape).1
        (calculateDistancesFromCenterOfNodeToEndOfNode source target
          sourceShape targetShape).2 := rfl
  have hcurvepos : (computeEdgeGeometry source target sourceShape targetShape elp
        isSummarized line { type := EdgeType.curve, margin := mar } scale).position
      = (if (edgeMargins line { type := EdgeType.curve, margin := mar }
              (calculateDistancesFromCenterOfNodeToEndOfNode source target
                sourceShape targetShape).1
              (calculateDistancesFromCenterOfNodeToEndOfNode source target
                sourceShape targetShape).2).1 * scale = 0
            ∧ (edgeMargins line { type := EdgeType.curve, margin := mar }
              (calculateDistancesFromCenterOfNodeToEndOfNode source target
                sourceShape targetShape).1
              (calculateDistancesFromCenterOfNodeToEndOfNode source target
                sourceShape targetShape).2).2 * scale = 0
          then positionsToLinePosition source target
          else applyMarginToLine (positionsToLinePosition source target)
            ((edgeMargins line { type := EdgeType.curve, margin := mar }
              (calculateDistancesFromCenterOfNodeToEndOfNode source target
                sourceShape targetShape).1
              (calculateDistancesFromCenterOfNodeToEndOfNode source target
                sourceShape targetShape).2).1 * scale)
            ((edgeMargins line { type := EdgeType.curve, margin := mar }
              (calculateDistancesFromCenterOfNodeToEndOfNode source target
                sourceShape targetShape).1
              (calculateDistancesFromCenterOfNodeToEndOfNode source target
                sourceShape targetShape).2).2 * scale)) := by
    simp only [computeEdgeGeometry, calculateCurvePositionAndState]
    rw [if_pos hshift]
  have hcurvenone : (computeEdgeGeometry source target sourceShape targetShape elp
        isSummarized line { type := EdgeType.curve, margin := mar } scale).curve
      = Option.none := by
    simp only [computeEdgeGeometry, calculateCurvePositionAndState]
    rw [if_pos hshift]
  have hstraightpos : (computeEdgeGeometry source target sourceShape targetShape elp
        isSummarized line { type := EdgeType.straight, margin := mar } scale).position
      = (if (edgeMargins line { type := EdgeType.curve, margin := mar }
              (calculateDistancesFromCenterOfNodeToEndOfNode source target
                sourceShape targetShape).1
              (calculateDistancesFromCenterOfNodeToEndOfNode source target
                sourceShape targetShape).2).1 = 0
            ∧ (edgeMargins line { type := EdgeType.curve, margin := mar }
              (calculateDistancesFromCenterOfNodeToEndOfNode source target
                sourceShape targetShape).1
              (calculateDistancesFromCenterOfNodeToEndOfNode source target
                sourceShape targetShape).2).2 = 0
          then positionsToLinePosition source target
          else applyMarginToLine (positionsToLinePosition source target)
            ((edgeMargins line { type := EdgeType.curve, margin := mar }
              (calculateDistancesFromCenterOfNodeToEndOfNode source target
                sourceShape targetShape).1
              (calculateDistancesFromCenterOfNodeToEndOfNode source target
                sourceShape targetShape).2).1 * scale)
            ((edgeMargins line { type := EdgeType.curve, margin := mar }
              (calculateDistancesFromCenterOfNodeToEndOfNode source target
                sourceShape targetShape).1
              (calculateDistancesFromCenterOfNodeToEndOfNode source target
                sourceShape targetShape).2).2 * scale)) := by
    simp only [computeEdgeGeometry, hm]
    rw [hsp]
  refine ⟨?_, hcurvenone, rfl, hcurvepos⟩
  rw [hcurvepos, hstraightpos]
  by_cases hz : (edgeMargins line { type := EdgeType.curve, margin := mar }
        (calculateDistancesFromCenterOfNodeToEndOfNode source target
          sourceShape targetShape).1
        (calculateDistancesFromCenterOfNodeToEndOfNode source target
          sourceShape targetShape).2).1 = 0
      ∧ (edgeMargins line { type := EdgeType.curve, margin := mar }
        (calculateDistancesFromCenterOfNodeToEndOfNode source target
          sourceShape targetShape).1
        (calculateDistancesFromCenterOfNodeToEndOfNode source target
          sourceShape targetShape).2).2 = 0
  · rw [if_pos hz]
    have hzs : (edgeMargins line { type := EdgeType.curve, margin := mar }
          (calculateDistancesFromCenterOfNodeToEndOfNode source target
            sourceShape targetShape).1
          (calculateDistancesFromCenterOfNodeToEndOfNode source target
            sourceShape targetShape).2).1 * scale = 0
        ∧ (edgeMargins line { type := EdgeType.curve, margin := mar }
          (calculateDistancesFromCenterOfNodeToEndOfNode source target
            sourceShape targetShape).1
          (calculateDistancesFromCenterOfNodeToEndOfNode source target
            sourceShape targetShape).2).2 * scale = 0 := by
      rw [hz.1, hz.2]
      constructor <;> ring
    rw [if_pos hzs]
  · rw [if_neg hz]
    by_cases hzs : (edgeMargins line { type := EdgeType.curve, margin := mar }
          (calculateDistancesFromCenterOfNodeToEndOfNode source target
            sourceShape targetShape).1
          (calculateDistancesFromCenterOfNodeToEndOfNode source target
            sourceShape targetShape).2).1 * scale = 0
        ∧ (edgeMargins line { type := EdgeType.curve, margin := mar }
          (calculateDistancesFromCenterOfNodeToEndOfNode source target
            sourceShape targetShape).1
          (calculateDistancesFromCenterOfNodeToEndOfNode source target
            sourceShape targetShape).2).2 * scale = 0
    · rw [if_pos hzs, hzs.1, hzs.2, applyMarginToLine_zero]
    · rw [if_neg hzs]

theorem c3_zero_shift_curve_equals_straight_witness :
    (computeEdgeGeometry ⟨0, 0⟩ ⟨2, 0⟩ exampleShape exampleShape ⟨0, 0⟩ false
        exampleLine { type := EdgeType.curve, margin := Option.none } 1).curve
      = Option.none :=
  (c3_zero_shift_curve_equals_straight ⟨0, 0⟩ ⟨2, 0⟩ exampleShape exampleShape
    ⟨0, 0⟩ false exampleLine Option.none 1 (by norm_num)).2.1

/-- The argument triples with which `calculateCurvePositionAndState`
invokes the circumcircle routine
`calculateCircleCenterAndRadiusBy3Points`: the source computes the
circle unconditionally, before the `shift === 0` test (lines 550 to
559 of `state.ts`), from the two origin end points and the shifted
midpoint — one invocation on every call. -/
noncomputable def circleFrom3PointsCallArguments
    (originPosition shiftedPosition : LinePosition) :
    List (Vec2 × Vec2 × Vec2) :=
  [((fromLinePosition originPosition).source, (fromLinePosition originPosition).target,
    getCenterOfLinePosition shiftedPosition)]

/-- Collinearity of three points. -/
def collinear3 (p1 p2 p3 : Vec2) : Prop :=
  cross (vsub p2 p1) (vsub p3 p1) = 0

/-- Counterexample to claim C8: for a curve-type edge with group shift
zero, the circumcircle routine is nevertheless invoked — its argument
triple (origin source, origin target, shifted midpoint) is collinear;
only its result is discarded by the straight-line shortcut. -/
theorem c8_collinear_invocation_counterexample :
    circleFrom3PointsCallArguments (positionsToLinePosition ⟨0, 0⟩ ⟨2, 0⟩)
        (calculateEdgeShiftedPosition ⟨0, 0⟩ false ⟨0, 0⟩ ⟨2, 0⟩ 1)
      = [(⟨0, 0⟩, ⟨2, 0⟩,
          getCenterOfLinePosition (calculateEdgeShiftedPosition ⟨0, 0⟩ false ⟨0, 0⟩ ⟨2, 0⟩ 1))]
    ∧ collinear3 ⟨0, 0⟩ ⟨2, 0⟩
        (getCenterOfLinePosition (calculateEdgeShiftedPosition ⟨0, 0⟩ false ⟨0, 0⟩ ⟨2, 0⟩ 1))
    ∧ (⟨0, 0⟩ : EdgeLayoutPoint).groupWidth / 2 - (⟨0, 0⟩ : EdgeLayoutPoint).pointInGroup
        = 0 := by
  refine ⟨rfl, ?_, by norm_num⟩
  simp only [collinear3, calculateEdgeShiftedPosition, positionsToLinePosition,
    getCenterOfLinePosition, vadd, vsub, smul, cross]
  norm_num

/-- Claim C8 (amended): for shift zero the caller returns the
straight-line shortcut — the margins applied to the origin line, with
no curve — so the (unconditionally computed) degenerate circumcircle
result is never used. -/
theorem c8_zero_shift_shortcut (originPosition shiftedPosition : LinePosition)
    (shift sourceMargin targetMargin : ℝ) (h : shift = 0) :
    calculateCurvePositionAndState originPosition shiftedPosition shift
        sourceMargin targetMargin
      = ((if sourceMargin = 0 ∧ targetMargin = 0 then originPosition
          else applyMarginToLine originPosition sourceMargin targetMargin),
         Option.none) := by
  simp only [calculateCurvePositionAndState]
  rw [if_pos h]

theorem c8_zero_shift_shortcut_witness :
    calculateCurvePositionAndState ⟨0, 0, 2, 0⟩ ⟨0, 0, 2, 0⟩ 0 0 0
      = ((if (0 : ℝ) = 0 ∧ (0 : ℝ) = 0 then (⟨0, 0, 2, 0⟩ : LinePosition)
          else applyMarginToLine ⟨0, 0, 2, 0⟩ 0 0), Option.none) :=
  c8_zero_shift_shortcut ⟨0, 0, 2, 0⟩ ⟨0, 0, 2, 0⟩ 0 0 0 rfl

/-- Claim C4: for a curve-type edge with nonzero group shift, when the
margin application reverses the angular order of the two end points
around the circle center, the computation collapses to a short stub at
the shifted midpoint: the returned position runs from the shifted
midpoint half a unit along the normalized shifted-line vector, and the
curve is absent. -/
theorem c4_margin_overrun_stub (originPosition shiftedPosition : LinePosition)
    (shift sourceMargin targetMargin : ℝ) (hshift : shift ≠ 0)
    (hm : ¬ (sourceMargin = 0 ∧ targetMargin = 0))
    (hrev : curveMarginReversed originPosition shiftedPosition sourceMargin targetMargin) :
    calculateCurvePositionAndState originPosition shiftedPosition shift
        sourceMargin targetMargin
      = (positionsToLinePosition (getCenterOfLinePosition shiftedPosition)
          (vadd (getCenterOfLinePosition shiftedPosition)
            (smul (1 / 2) (normalize (fromLinePosition shiftedPosition).v))),
         Option.none) := by
  simp only [calculateCurvePositionAndState]
  rw [if_neg hshift, if_neg hm, if_pos hrev]

theorem arctan_pos_of_pos {x : ℝ} (h : 0 < x) : 0 < Real.arctan x := by
  have hm := Real.arctan_strictMono h
  rwa [Real.arctan_zero] at hm

theorem arctan_neg_of_neg {x : ℝ} (h : x < 0) : Real.arctan x < 0 := by
  have hm := Real.arctan_strictMono h
  rwa [Real.arctan_zero] at hm

theorem atan2_pos_of_pos (y x : ℝ) (hy : 0 < y) : 0 < atan2 y x := by
  unfold atan2
  by_cases hx : 0 < x
  · rw [if_pos hx]
    exact arctan_pos_of_pos (div_pos hy hx)
  · rw [if_neg hx]
    by_cases hxn : x < 0
    · rw [if_pos hxn, if_pos (le_of_lt hy)]
      have h1 : -(Real.pi / 2) < Real.arctan (y / x) := Real.neg_pi_div_two_lt_arctan _
      have h2 : 0 < Real.pi := Real.pi_pos
      linarith
    · rw [if_neg hxn, if_pos hy]
      linarith [Real.pi_pos]

theorem atan2_neg_of_neg (y x : ℝ) (hy : y < 0) : atan2 y x < 0 := by
  unfold atan2
  by_cases hx : 0 < x
  · rw [if_pos hx]
    exact arctan_neg_of_neg (div_neg_of_neg_of_pos hy hx)
  · rw [if_neg hx]
    by_cases hxn : x < 0
    · rw [if_pos hxn, if_neg (not_le.mpr hy)]
      have h1 : Real.arctan (y / x) < Real.pi / 2 := Real.arctan_lt_pi_div_two _
      linarith [Real.pi_pos]
    · rw [if_neg hxn, if_neg (not_lt.mpr (le_of_lt hy)), if_pos hy]
      linarith [Real.pi_pos]

theorem relAngle_pos_of_cross_pos (a b : Vec2) (h : 0 < cross a b) :
    0 < calculateRelativeAngleRadian a b :=
  atan2_pos_of_pos _ _ h

theorem relAngle_neg_of_cross_neg (a b : Vec2) (h : cross a b < 0) :
    calculateRelativeAngleRadian a b < 0 :=
  atan2_neg_of_neg _ _ h

/-- A concrete reversal instance: origin line from `(-1, 0)` to
`(1, 0)`, shifted line at height `1/2` (circle center `(0, -3/4)`,
radius `5/4`), and margins of `5π/8` on both sides, which rotate the
end points by `π/2` past each other. -/
theorem c4WitnessReversed :
    curveMarginReversed ⟨-1, 0, 1, 0⟩ ⟨-1, 1/2, 1, 1/2⟩
      (5 * Real.pi / 8) (5 * Real.pi / 8) := by
  have hs2516 : Real.sqrt (25 / 16) = 5 / 4 := by
    rw [show (25 / 16 : ℝ) = (5 / 4) ^ 2 by norm_num]
    exact Real.sqrt_sq (by norm_num)
  have hsc : getCenterOfLinePosition (⟨-1, 1/2, 1, 1/2⟩ : LinePosition)
      = (⟨0, 1/2⟩ : Vec2) := by
    simp only [getCenterOfLinePosition]
    norm_num
  have hc3 : calculateCircleCenterAndRadiusBy3Points ⟨-1, 0⟩ ⟨1, 0⟩ ⟨0, 1/2⟩
      = ((⟨0, -(3/4)⟩ : Vec2), 5 / 4) := by
    simp only [calculateCircleCenterAndRadiusBy3Points, calculateDistance, vnorm, vsub]
    norm_num [Prod.mk.injEq, Vec2.mk.injEq, hs2516]
  have hrad : 5 * Real.pi / 8 / (5 / 4 : ℝ) = Real.pi / 2 := by
    ring
  have hmv1 : moveOnCircumference ⟨-1, 0⟩ ⟨0, -(3/4)⟩ (Real.pi / 2)
      = (⟨-(3/4), -(7/4)⟩ : Vec2) := by
    simp only [moveOnCircumference, Real.cos_pi_div_two, Real.sin_pi_div_two]
    norm_num [Vec2.mk.injEq]
  have hmv2 : moveOnCircumference ⟨1, 0⟩ ⟨0, -(3/4)⟩ (-(Real.pi / 2))
      = (⟨3/4, -(7/4)⟩ : Vec2) := by
    simp only [moveOnCircumference, Real.cos_neg, Real.sin_neg,
      Real.cos_pi_div_two, Real.sin_pi_div_two]
    norm_num [Vec2.mk.injEq]
  have hθ0 : calculateRelativeAngleRadian ⟨-1, 3/4⟩ ⟨0, 5/4⟩ < 0 :=
    relAngle_neg_of_cross_neg _ _ (by norm_num [cross])
  have hθ1 : calculateRelativeAngleRadian ⟨-1, 3/4⟩ ⟨1, 3/4⟩ < 0 :=
    relAngle_neg_of_cross_neg _ _ (by norm_num [cross])
  have hθ2 : 0 < calculateRelativeAngleRadian ⟨-(3/4), -1⟩ ⟨3/4, -1⟩ :=
    relAngle_pos_of_cross_pos _ _ (by norm_num [cross])
  have hif0 : ¬ (0 < calculateRelativeAngleRadian ⟨-1, 3/4⟩ ⟨0, 5/4⟩) := lt_asymm hθ0
  simp only [curveMarginReversed, curveMarginPosition, fromLinePosition, fromVectors,
    fromPositions, positionsToLinePosition, vsub]
  rw [hsc]
  norm_num
  rw [hc3]
  norm_num
  simp only [hif0, if_neg, if_false, ite_false]
  rw [hrad]
  rw [hmv1, hmv2]
  norm_num
  have hmul : ¬ (calculateRelativeAngleRadian ⟨-1, 3/4⟩ ⟨0, 5/4⟩
      * calculateRelativeAngleRadian ⟨-1, 3/4⟩ ⟨1, 3/4⟩ < 0) :=
    not_lt.mpr (le_of_lt (mul_pos_of_neg_of_neg hθ0 hθ1))
  simp only [hmul, if_neg, if_false, ite_false,
    (show ¬ ((calculateRelativeAngleRadian ⟨-1, 3/4⟩ ⟨0, 5/4⟩
        * calculateRelativeAngleRadian ⟨-1, 3/4⟩ ⟨1, 3/4⟩ < 0)
      ∧ (calculateRelativeAngleRadian ⟨-1, 3/4⟩ ⟨0, 5/4⟩
        * calculateRelativeAngleRadian ⟨-(3/4), -1⟩ ⟨3/4, -1⟩ < 0)) from fun h => hmul h.1)]
  exact mul_neg_of_neg_of_pos hθ1 hθ2

theorem c4_margin_overrun_stub_witness :
    calculateCurvePositionAndState ⟨-1, 0, 1, 0⟩ ⟨-1, 1/2, 1, 1/2⟩ 1
        (5 * Real.pi / 8) (5 * Real.pi / 8)
      = (positionsToLinePosition
          (getCenterOfLinePosition (⟨-1, 1/2, 1, 1/2⟩ : LinePosition))
          (vadd (getCenterOfLinePosition (⟨-1, 1/2, 1, 1/2⟩ : LinePosition))
            (smul (1 / 2) (normalize (fromLinePosition (⟨-1, 1/2, 1, 1/2⟩ : LinePosition)).v))),
         Option.none) :=
  c4_margin_overrun_stub ⟨-1, 0, 1, 0⟩ ⟨-1, 1/2, 1, 1/2⟩ 1
    (5 * Real.pi / 8) (5 * Real.pi / 8) (by norm_num)
    (fun h => absurd h.1 (by positivity))
    c4WitnessReversed

/-!
Path point engine (claims C5 and C7), from `_calculatePathPoints` of
the path component.
-/

/-- The `PathEndType` of `common/configs.ts`. -/
inductive PathEndType where
  | centerOfNode
  | edgeOfNode
deriving DecidableEq

/-- An element of the computed path point sequence: a single point or
a tuple of control and target points (the `PositionOrCurve` of
`common/types.ts`; the reserved `null` marker is never produced). -/
inductive PathPoint where
  | pt (p : Vec2)
  | seq (ps : List Vec2)

/-- The geometry fields of an edge state consumed by the path engine
(`state.origin` and `state.curve`). -/
structure PathEdgeState where
  origin : LinePosition
  curve : Option Curve

/-- The `EdgeLine` record of the path component: resolved direction,
end node identifiers, display line and optional curve. -/
structure EdgeLine where
  edgeId : String
  source : String
  target : String
  line : Line
  curve : Option Curve

/-- `_getNodeRadius` of the path component: the radius of a circle,
half the smaller extent of a rectangle. -/
noncomputable def getNodeRadius (shape : ShapeStyle) : ℝ :=
  match shape.type with
  | ShapeType.circle => shape.radius
  | ShapeType.rect => min shape.width shape.height / 2

/-- `_getEdgeLine` of the path component: the state origin and curve,
inverted (end points swapped, theta negated) when the edge is
traversed in reverse. -/
noncomputable def getEdgeLine (edge : EdgeObject) (direction : Bool)
    (state : PathEdgeState) : EdgeLine :=
  { edgeId := edge.edgeId
    source := if direction then edge.edge.source else edge.edge.target
    target := if direction then edge.edge.target else edge.edge.source
    line := fromLinePosition (if direction then state.origin else inverseLine state.origin)
    curve := if direction then state.curve
      else state.curve.map (fun c => { c with theta := -c.theta }) }

/-- The `EPSILON` tolerance of the path component:
`Number.EPSILON * 100`. -/
noncomputable def EPSILON : ℝ := 100 / 2 ^ 52

/-- `_getSlope` of the path component; `none` stands for the
non-finite slope of a vertical segment. -/
noncomputable def getSlope (l : Line) : Option ℝ :=
  if l.target.x - l.source.x = 0 then Option.none
  else Option.some ((l.target.y - l.source.y) / (l.target.x - l.source.x))

/-- `_getIntersectionOfLines` of the path component: the intersection
of the two display lines, via the circle routines when a curve is
involved and via slope comparison (with the epsilon tolerance) for two
straight lines. -/
noncomputable def getIntersectionOfLines (prev next : EdgeLine) (nodePos : Vec2) :
    Option Vec2 :=
  match prev.curve with
  | Option.some pc =>
      match next.curve with
      | Option.some nc =>
          if prev.line.target = next.line.source then Option.some prev.line.target
          else
            getIntersectionOfCircles pc.circle.center pc.circle.radius
              nc.circle.center nc.circle.radius pc.center
      | Option.none =>
          getIntersectionOfLineTargetAndCircle2 next.line.target next.line.source
            pc.circle.center pc.circle.radius nodePos
  | Option.none =>
      match next.curve with
      | Option.some nc =>
          getIntersectionOfLineTargetAndCircle prev.line.source prev.line.target
            nc.circle.center nc.circle.radius
      | Option.none =>
          let isParallel : Bool :=
            match getSlope prev.line, getSlope next.line with
            | Option.none, Option.none => true
            | Option.some a, Option.some b => decide (|a - b| < EPSILON)
            | _, _ => false
          if isParallel then Option.none
          else getIntersectionPointOfLines prev.line next.line

/-- `_getIntersectionOfLineAndNode` of the path component. -/
noncomputable def getIntersectionOfLineAndNode (edge : EdgeLine) (nodeCenter : Vec2)
    (nodeRadius : ℝ) (targetSide : Bool) : Option Vec2 :=
  match edge.curve with
  | Option.some c =>
      getIntersectionOfCircles nodeCenter nodeRadius c.circle.center c.circle.radius
        c.center
  | Option.none =>
      getIntersectionOfLineTargetAndCircle
        (if targetSide then edge.line.source else edge.line.target)
        (if targetSide then edge.line.target else edge.line.source)
        nodeCenter nodeRadius

/-- Modelled from the spec: the `findFirstNonNull` utility (missing
`common/utility.ts`) applied to two optional candidates and a certain
fallback — the first defined one. -/
def findFirstNonNull2 (a b : Option Vec2) (c : Vec2) : Vec2 :=
  match a with
  | Option.some p => p
  | Option.none =>
      match b with
      | Option.some p => p
      | Option.none => c

/-- `_calculateEdgeOfNode` of the path component: the boundary point
at distance `nodeRadius` from the path end node — along the curve
circle for a curved edge, via the line-circle intersection (falling
back to the far end point) for a straight edge. -/
noncomputable def calculateEdgeOfNode (edge : EdgeLine) (nodeRadius : ℝ)
    (nodeLayouts : String → Vec2) (direction : Bool) : Vec2 :=
  let nodeId := if direction then edge.source else edge.target
  match edge.curve with
  | Option.some curve =>
      let moveRad0 := nodeRadius / curve.circle.radius
      let moveRad1 := if 0 < curve.theta then -moveRad0 else moveRad0
      let moveRad := if direction then moveRad1 else -moveRad1
      moveOnCircumference (if direction then edge.line.source else edge.line.target)
        curve.circle.center moveRad
  | Option.none =>
      let s := if direction then edge.line.target else edge.line.source
      let t := if direction then edge.line.source else edge.line.target
      match getIntersectionOfLineTargetAndCircle s t (nodeLayouts nodeId) nodeRadius with
      | Option.none => s
      | Option.some p => p

/-- The `if (aIp && bIp)` pattern of the transit point computation:
when both crossings exist they become the transit points around the
node center, otherwise the fallback applies. -/
noncomputable def transitBothCrossings (aIp bIp : Option Vec2) (nodePos : Vec2)
    (fallback : Vec2 × Vec2 × Vec2) : Vec2 × Vec2 × Vec2 :=
  match aIp, bIp with
  | Option.some p, Option.some q => (p, nodePos, q)
  | Option.some _, Option.none => fallback
  | Option.none, _ => fallback

/-- The transit point policy of `_calculatePathPoints` (lines 234 to
317 of the path component), as a function of the already computed
intersection data.  The result is the triple (incoming transit point,
Bezier control point, outgoing transit point). -/
noncomputable def calculateTransitPos (crossPoint : Option Vec2) (nodePos : Vec2)
    (nodeCoreRadius nodeRadius : ℝ)
    (prevCoreIp nextCoreIp prevNodeIp nextNodeIp : Option Vec2)
    (prevLineTarget nextLineSource : Vec2) : Vec2 × Vec2 × Vec2 :=
  match crossPoint with
  | Option.some cp =>
      let d := calculateDistance cp nodePos
      if d < nodeCoreRadius then
        -- (1) the core circle contains the intersection
        (findFirstNonNull2 prevCoreIp prevNodeIp prevLineTarget, cp,
         findFirstNonNull2 nextCoreIp nextNodeIp nextLineSource)
      else if d ≤ nodeRadius then
        -- (2) the node circle contains the intersection
        let p1 :=
          match prevNodeIp, prevCoreIp with
          | Option.some pn, Option.some pc =>
              if calculateDistance cp pc < calculateDistance cp pn then pc else pn
          | Option.some pn, Option.none => pn
          | Option.none, _ => prevLineTarget
        let p2 :=
          match nextNodeIp, nextCoreIp with
          | Option.some pn, Option.some pc =>
              if calculateDistance cp pc < calculateDistance cp pn then pc else pn
          | Option.some pn, Option.none => pn
          | Option.none, _ => nextLineSource
        (p1, cp, p2)
      else
        -- (3) the intersection is outside the node circle
        transitBothCrossings prevCoreIp nextCoreIp nodePos
          (transitBothCrossings prevNodeIp nextNodeIp nodePos
            (findFirstNonNull2 prevCoreIp prevNodeIp prevLineTarget, nodePos,
             findFirstNonNull2 nextCoreIp nextNodeIp nextLineSource))
  | Option.none =>
      -- no intersection of the two lines
      transitBothCrossings prevCoreIp nextCoreIp nodePos
        (transitBothCrossings prevNodeIp nextNodeIp nodePos
          (prevLineTarget, nodePos, nextLineSource))

/-- The points appended by one iteration of the transit loop of
`_calculatePathPoints` (lines 210 to 358): the transit triple at the
node shared by `prev` and `next`, stitched into a Bezier continuation
when the incoming edge carries a curve.  The loop body only reads the
accumulated points through their last element. -/
noncomputable def transitStepTail (nodeShapes : String → ShapeStyle)
    (nodeLayouts : String → Vec2) (scale : ℝ) (curveInNode : Bool)
    (points : List PathPoint) (prev next : EdgeLine) : List PathPoint :=
  let nodeId := next.source
  let nodePos := nodeLayouts nodeId
  let crossPoint := getIntersectionOfLines prev next nodePos
  let nodeRadius := getNodeRadius (nodeShapes nodeId) * scale
  let nodeCoreRadius := max (nodeRadius * (2 / 3)) (nodeRadius - 4 * scale)
  let prevCoreIp := getIntersectionOfLineAndNode prev nodePos nodeCoreRadius true
  let nextCoreIp := getIntersectionOfLineAndNode next nodePos nodeCoreRadius false
  let prevNodeIp := getIntersectionOfLineAndNode prev nodePos nodeRadius true
  let nextNodeIp := getIntersectionOfLineAndNode next nodePos nodeRadius false
  let pos := calculateTransitPos crossPoint nodePos nodeCoreRadius nodeRadius
    prevCoreIp nextCoreIp prevNodeIp nextNodeIp prev.line.target next.line.source
  match prev.curve with
  | Option.some pcurve =>
      match points.getLast? with
      | Option.none => []
      | Option.some lastPoints =>
          let lastPoint :=
            match lastPoints with
            | PathPoint.pt p => p
            | PathPoint.seq ps => ps.getLastD ⟨0, 0⟩
          let nextPoint := if curveInNode then pos.1 else pos.2.1
          let control := calculateBezierCurveControlPoint lastPoint pcurve.circle.center
            nextPoint pcurve.theta
          if curveInNode then
            [PathPoint.seq (control ++ [pos.1, pos.2.1, pos.2.2])]
          else
            [PathPoint.seq (control ++ [nextPoint])]
  | Option.none =>
      if curveInNode then
        [PathPoint.seq [pos.1, pos.2.1, pos.2.2]]
      else
        match next.curve with
        | Option.some _ => [PathPoint.pt pos.2.1]
        | Option.none => [PathPoint.pt pos.1, PathPoint.pt pos.2.2]

/-- One iteration of the transit loop of `_calculatePathPoints`: the
loop body only ever pushes onto the point list, so it is the
accumulated points followed by the appended tail. -/
noncomputable def transitStep (nodeShapes : String → ShapeStyle)
    (nodeLayouts : String → Vec2) (scale : ℝ) (curveInNode : Bool)
    (points : List PathPoint) (prev next : EdgeLine) : List PathPoint :=
  points ++ transitStepTail nodeShapes nodeLayouts scale curveInNode points prev next

/-- The resolved edge lines of a path (`edgePos` of
`_calculatePathPoints`): direction detection followed by the per-edge
state lookup. -/
noncomputable def pathEdgeLines (edges : List EdgeObject)
    (edgeStates : String → PathEdgeState) : List EdgeLine :=
  List.zipWith (fun e d => getEdgeLine e d (edgeStates e.edgeId)) edges
    (detectDirectionsOfPathEdges (edges.map EdgeObject.edge))

/-- The `lineMargin` of the start (direction `true`) and end
(`false`) blocks of `_calculatePathPoints`: the configured margin
plus, for the `edgeOfNode` end type, the scaled radius of the path
end node. -/
noncomputable def pathLineMargin (edge : EdgeLine) (nodeShapes : String → ShapeStyle)
    (scale margin : ℝ) (pathEndType : PathEndType) (direction : Bool) : ℝ :=
  let nodeRadius :=
    getNodeRadius (nodeShapes (if direction then edge.source else edge.target)) * scale
  margin + (if pathEndType = PathEndType.edgeOfNode then nodeRadius else 0)

/-- The boundary point of the start (direction `true`) or end
(`false`) block of `_calculatePathPoints`: the raw line end point when
the line margin is not positive, the offset boundary point otherwise. -/
noncomputable def pathBoundaryPoint (edge : EdgeLine) (nodeShapes : String → ShapeStyle)
    (nodeLayouts : String → Vec2) (scale margin : ℝ) (pathEndType : PathEndType)
    (direction : Bool) : Vec2 :=
  let lineMargin := pathLineMargin edge nodeShapes scale margin pathEndType direction
  if lineMargin ≤ 0 then (if direction then edge.line.source else edge.line.target)
  else calculateEdgeOfNode edge lineMargin nodeLayouts direction

/-- The margin overrun flag of `_calculatePathPoints` (start for
direction `true`, end for `false`): the margin is positive and the
source-to-target distance of the display line does not exceed the
line margin plus the scaled radius of the node at the opposite end. -/
noncomputable def marginOverRun (edge : EdgeLine) (nodeShapes : String → ShapeStyle)
    (scale margin : ℝ) (pathEndType : PathEndType) (direction : Bool) : Prop :=
  0 < margin ∧
    calculateDistance edge.line.source edge.line.target
      ≤ pathLineMargin edge nodeShapes scale margin pathEndType direction
        + getNodeRadius (nodeShapes (if direction then edge.target else edge.source)) * scale

noncomputable instance marginOverRunDec (edge : EdgeLine)
    (nodeShapes : String → ShapeStyle) (scale margin : ℝ)
    (pathEndType : PathEndType) (direction : Bool) :
    Decidable (marginOverRun edge nodeShapes scale margin pathEndType direction) := by
  unfold marginOverRun
  exact instDecidableAnd

/-- The end block of `_calculatePathPoints` (lines 364 to 394): a
Bezier continuation from the last emitted point when the last edge
carries a curve, a plain point otherwise. -/
noncomputable def pathEndPoints (lastEdge : EdgeLine) (points : List PathPoint)
    (endPoint : Vec2) : List PathPoint :=
  match lastEdge.curve with
  | Option.some curve =>
      let lastPoint :=
        match points.getLast? with
        | Option.some (PathPoint.pt p) => p
        | Option.some (PathPoint.seq ps) => ps.getLastD ⟨0, 0⟩
        | Option.none => ⟨0, 0⟩
      let control := calculateBezierCurveControlPoint lastPoint curve.circle.center
        endPoint curve.theta
      points ++ [PathPoint.seq (control ++ [endPoint])]
  | Option.none => points ++ [PathPoint.pt endPoint]

/-- The untrimmed point emission of `_calculatePathPoints`: the start
boundary point, the transit points of every interior node, and the
end boundary point. -/
noncomputable def pathPointsRaw (edges : List EdgeObject)
    (nodeShapes : String → ShapeStyle) (nodeLayouts : String → Vec2)
    (edgeStates : String → PathEdgeState) (scale : ℝ) (curveInNode : Bool)
    (pathEndType : PathEndType) (margin : ℝ) : List PathPoint :=
  match pathEdgeLines edges edgeStates with
  | [] => []
  | firstEdge :: restLines =>
      let startPoint := pathBoundaryPoint firstEdge nodeShapes nodeLayouts scale margin
        pathEndType true
      let lastEdge := restLines.getLastD firstEdge
      let pairs := List.zip (firstEdge :: restLines) restLines
      let points1 := pairs.foldl
        (fun pts pr => transitStep nodeShapes nodeLayouts scale curveInNode pts pr.1 pr.2)
        [PathPoint.pt startPoint]
      let endPoint := pathBoundaryPoint lastEdge nodeShapes nodeLayouts scale margin
        pathEndType false
      pathEndPoints lastEdge points1 endPoint

/-- The overrun trimming of `_calculatePathPoints` (lines 397 to
405): on a start overrun the first point is removed and, when the
remaining sequence then starts with a Bezier tuple, that tuple's first
control point is prepended as a plain point; on an end overrun the
last point is removed. -/
noncomputable def trimPathPoints (points : List PathPoint)
    (overrunStart overrunEnd : Bool) : List PathPoint :=
  let p1 := if overrunStart then
      match points with
      | [] => []
      | _ :: tl =>
          match tl with
          | PathPoint.seq ps :: _ => PathPoint.pt (ps.headD ⟨0, 0⟩) :: tl
          | _ => tl
    else points
  if overrunEnd then p1.dropLast else p1

/-- The `_calculatePathPoints` function of the path component: the
untrimmed emission followed by the overrun trimming controlled by the
two flags. -/
noncomputable def calculatePathPoints (path : PathObject)
    (nodeShapes : String → ShapeStyle) (nodeLayouts : String → Vec2)
    (edgeStates : String → PathEdgeState) (scale : ℝ) (curveInNode : Bool)
    (pathEndType : PathEndType) (margin : ℝ) : List PathPoint :=
  match pathEdgeLines path.edges edgeStates with
  | [] => []
  | firstEdge :: restLines =>
      let lastEdge := restLines.getLastD firstEdge
      trimPathPoints
        (pathPointsRaw path.edges nodeShapes nodeLayouts edgeStates scale curveInNode
          pathEndType margin)
        (decide (marginOverRun firstEdge nodeShapes scale margin pathEndType true))
        (decide (marginOverRun lastEdge nodeShapes scale margin pathEndType false))

/-- Claim C5 (amended): when the intersection of the incoming and
outgoing display lines lies strictly outside the node radius, or no
intersection exists, the node center is the Bezier control point and
the transit points are the core-circle crossings if both lines have
one, else the node-circle crossings if both have one; otherwise, with
an existing intersection each side independently falls back to its
first available of core crossing, node crossing, raw line end point,
while with no intersection both raw line end points are used. -/
theorem c5_outside_transit_policy (crossPoint : Option Vec2) (nodePos : Vec2)
    (nodeCoreRadius nodeRadius : ℝ) (hcr : nodeCoreRadius ≤ nodeRadius)
    (prevCoreIp nextCoreIp prevNodeIp nextNodeIp : Option Vec2)
    (prevLineTarget nextLineSource : Vec2)
    (h : crossPoint = Option.none
      ∨ ∃ cp, crossPoint = Option.some cp ∧ nodeRadius < calculateDistance cp nodePos) :
    ((calculateTransitPos crossPoint nodePos nodeCoreRadius nodeRadius prevCoreIp
        nextCoreIp prevNodeIp nextNodeIp prevLineTarget nextLineSource).2.1 = nodePos)
    ∧ (∀ p q, prevCoreIp = Option.some p → nextCoreIp = Option.some q →
        calculateTransitPos crossPoint nodePos nodeCoreRadius nodeRadius prevCoreIp
          nextCoreIp prevNodeIp nextNodeIp prevLineTarget nextLineSource
          = (p, nodePos, q))
    ∧ ((prevCoreIp = Option.none ∨ nextCoreIp = Option.none) →
        ∀ p q, prevNodeIp = Option.some p → nextNodeIp = Option.some q →
        calculateTransitPos crossPoint nodePos nodeCoreRadius nodeRadius prevCoreIp
          nextCoreIp prevNodeIp nextNodeIp prevLineTarget nextLineSource
          = (p, nodePos, q))
    ∧ ((prevCoreIp = Option.none ∨ nextCoreIp = Option.none) →
        (prevNodeIp = Option.none ∨ nextNodeIp = Option.none) →
        (crossPoint = Option.none →
          calculateTransitPos crossPoint nodePos nodeCoreRadius nodeRadius prevCoreIp
            nextCoreIp prevNodeIp nextNodeIp prevLineTarget nextLineSource
            = (prevLineTarget, nodePos, nextLineSource))
        ∧ ∀ cp, crossPoint = Option.some cp →
            calculateTransitPos crossPoint nodePos nodeCoreRadius nodeRadius prevCoreIp
              nextCoreIp prevNodeIp nextNodeIp prevLineTarget nextLineSource
              = (findFirstNonNull2 prevCoreIp prevNodeIp prevLineTarget, nodePos,
                 findFirstNonNull2 nextCoreIp nextNodeIp nextLineSource)) := by
  have hred : calculateTransitPos crossPoint nodePos nodeCoreRadius nodeRadius prevCoreIp
      nextCoreIp prevNodeIp nextNodeIp prevLineTarget nextLineSource
      = transitBothCrossings prevCoreIp nextCoreIp nodePos
          (transitBothCrossings prevNodeIp nextNodeIp nodePos
            (match crossPoint with
              | Option.none => (prevLineTarget, nodePos, nextLineSource)
              | Option.some _ =>
                  (findFirstNonNull2 prevCoreIp prevNodeIp prevLineTarget, nodePos,
                   findFirstNonNull2 nextCoreIp nextNodeIp nextLineSource))) := by
    rcases h with hnone | ⟨cp, hsome, hout⟩
    · subst hnone
      rfl
    · subst hsome
      simp only [calculateTransitPos]
      rw [if_neg (not_lt.mpr (le_trans hcr (le_of_lt hout))), if_neg (not_le.mpr hout)]
  rw [hred]
  refine ⟨?_, ?_, ?_, ?_⟩
  · cases prevCoreIp <;> cases nextCoreIp <;> cases prevNodeIp <;> cases nextNodeIp <;>
      cases crossPoint <;> rfl
  · intro p q hp hq
    subst hp
    subst hq
    rfl
  · intro hor p q hp hq
    subst hp
    subst hq
    rcases hor with h1 | h1 <;> subst h1 <;>
      first
        | rfl
        | (cases prevCoreIp <;> rfl)
        | (cases nextCoreIp <;> rfl)
  · intro hor hor2
    constructor
    · intro hcp
      subst hcp
      cases prevCoreIp <;> cases nextCoreIp <;> cases prevNodeIp <;> cases nextNodeIp <;>
        first | rfl | simp_all [transitBothCrossings]
    · intro cp hcp
      subst hcp
      cases prevCoreIp <;> cases nextCoreIp <;> cases prevNodeIp <;> cases nextNodeIp <;>
        first | rfl | simp_all [transitBothCrossings, findFirstNonNull2]

theorem c5_outside_transit_policy_witness :
    calculateTransitPos Option.none ⟨0, 0⟩ 2 3 Option.none Option.none
        Option.none Option.none ⟨5, 5⟩ ⟨6, 6⟩
      = ((⟨5, 5⟩ : Vec2), (⟨0, 0⟩ : Vec2), (⟨6, 6⟩ : Vec2)) :=
  ((c5_outside_transit_policy Option.none ⟨0, 0⟩ 2 3 (by norm_num) Option.none
    Option.none Option.none Option.none ⟨5, 5⟩ ⟨6, 6⟩ (Or.inl rfl)).2.2.2
    (Or.inl rfl) (Or.inl rfl)).1 rfl

/-- Concrete two-edge path for the counterexample of claim C5. -/
def c5Path : PathObject :=
  { path := { edges := ["e1", "e2"] },
    edges := [{ edgeId := "e1", edge := { source := "A", target := "B" } },
              { edgeId := "e2", edge := { source := "B", target := "C" } }] }

/-- Concrete node shapes for claim C5: the transit node `B` has
radius 5. -/
def c5Shapes : String → ShapeStyle := fun n =>
  if n = "B" then { type := ShapeType.circle, radius := 5, width := 10, height := 10 }
  else { type := ShapeType.circle, radius := 0, width := 0, height := 0 }

/-- Concrete node layouts for claim C5: the transit node `B` sits at
the origin. -/
def c5Layouts : String → Vec2 := fun _ => ⟨0, 0⟩

/-- Concrete edge states for claim C5: the first display line runs
into the node, the second one (a laterally shifted parallel-group
line) passes the node at a distance of about six, missing both guide
circles. -/
def c5States : String → PathEdgeState := fun id =>
  if id = "e1" then { origin := { x1 := -20, y1 := 0, x2 := 0, y2 := 0 }, curve := Option.none }
  else { origin := { x1 := 0, y1 := 6, x2 := 40, y2 := 7 }, curve := Option.none }

/-- The resolved first edge line of the claim C5 path. -/
def c5PrevLine : EdgeLine :=
  { edgeId := "e1", source := "A", target := "B",
    line := { source := ⟨-20, 0⟩, target := ⟨0, 0⟩ }, curve := Option.none }

/-- The resolved second edge line of the claim C5 path. -/
def c5NextLine : EdgeLine :=
  { edgeId := "e2", source := "B", target := "C",
    line := { source := ⟨0, 6⟩, target := ⟨40, 7⟩ }, curve := Option.none }

/-- Counterexample to claim C5: at the transit node the intersection
of the two display lines exists and lies strictly outside the node
radius; the incoming line crosses both guide circles while the
outgoing line crosses neither, so per the claim the transit points
would be the raw line end points — but the emitted sequence uses the
incoming line's core-circle crossing `(-10/3, 0)` instead of its raw
end point `(0, 0)`. -/
theorem c5_transit_fallback_counterexample :
    pathEdgeLines c5Path.edges c5States = [c5PrevLine, c5NextLine]
    ∧ getIntersectionOfLines c5PrevLine c5NextLine ⟨0, 0⟩ = Option.some ⟨-240, 0⟩
    ∧ getNodeRadius (c5Shapes "B") * 1 < calculateDistance ⟨-240, 0⟩ ⟨0, 0⟩
    ∧ calculatePathPoints c5Path c5Shapes c5Layouts c5States 1 false
        PathEndType.centerOfNode 0
      = [PathPoint.pt ⟨-20, 0⟩, PathPoint.pt ⟨-(10/3), 0⟩, PathPoint.pt ⟨0, 6⟩,
         PathPoint.pt ⟨40, 7⟩]
    ∧ calculatePathPoints c5Path c5Shapes c5Layouts c5States 1 false
        PathEndType.centerOfNode 0
      ≠ [PathPoint.pt ⟨-20, 0⟩, PathPoint.pt ⟨0, 0⟩, PathPoint.pt ⟨0, 6⟩,
         PathPoint.pt ⟨40, 7⟩] := by
  have h4003 : Real.sqrt (160000 / 9) = 400 / 3 := by
    rw [show (160000 / 9 : ℝ) = (400 / 3) ^ 2 by norm_num]
    exact Real.sqrt_sq (by norm_num)
  have h200 : Real.sqrt 40000 = 200 := by
    rw [show (40000 : ℝ) = 200 ^ 2 by norm_num]
    exact Real.sqrt_sq (by norm_num)
  have h240 : Real.sqrt 57600 = 240 := by
    rw [show (57600 : ℝ) = 240 ^ 2 by norm_num]
    exact Real.sqrt_sq (by norm_num)
  have hlines : pathEdgeLines c5Path.edges c5States = [c5PrevLine, c5NextLine] := rfl
  have hcross : getIntersectionOfLines c5PrevLine c5NextLine ⟨0, 0⟩
      = Option.some ⟨-240, 0⟩ := by
    norm_num [getIntersectionOfLines, c5PrevLine, c5NextLine, getSlope, EPSILON,
      getIntersectionPointOfLines, Line.v, vsub, vadd, smul, cross, decide_eq_true_eq,
      Vec2.mk.injEq]
    intro h
    rw [abs_of_pos (by norm_num : (0 : ℝ) < 1 / 40)] at h
    norm_num at h
  have hPC : getIntersectionOfLineAndNode c5PrevLine ⟨0, 0⟩ (10 / 3) true
      = Option.some ⟨-(10 / 3), 0⟩ := by
    norm_num [getIntersectionOfLineAndNode, c5PrevLine,
      getIntersectionOfLineTargetAndCircle, vsub, vadd, smul, dot, h4003, Vec2.mk.injEq]
  have hPN : getIntersectionOfLineAndNode c5PrevLine ⟨0, 0⟩ 5 true
      = Option.some ⟨-5, 0⟩ := by
    norm_num [getIntersectionOfLineAndNode, c5PrevLine,
      getIntersectionOfLineTargetAndCircle, vsub, vadd, smul, dot, h200, Vec2.mk.injEq]
  have hNC : getIntersectionOfLineAndNode c5NextLine ⟨0, 0⟩ (10 / 3) false
      = Option.none := by
    norm_num [getIntersectionOfLineAndNode, c5NextLine,
      getIntersectionOfLineTargetAndCircle, vsub, vadd, smul, dot]
  have hNN : getIntersectionOfLineAndNode c5NextLine ⟨0, 0⟩ 5 false
      = Option.none := by
    norm_num [getIntersectionOfLineAndNode, c5NextLine,
      getIntersectionOfLineTargetAndCircle, vsub, vadd, smul, dot]
  have hdist : calculateDistance ⟨-240, 0⟩ ⟨0, 0⟩ = 240 := by
    norm_num [calculateDistance, vnorm, vsub, h240]
  have htrans : transitStep c5Shapes c5Layouts 1 false [PathPoint.pt ⟨-20, 0⟩]
      c5PrevLine c5NextLine
      = [PathPoint.pt ⟨-20, 0⟩, PathPoint.pt ⟨-(10 / 3), 0⟩, PathPoint.pt ⟨0, 6⟩] := by
    simp only [transitStep, transitStepTail]
    rw [show c5NextLine.source = "B" from rfl]
    rw [show c5Layouts "B" = (⟨0, 0⟩ : Vec2) from rfl]
    rw [show c5Shapes "B"
        = ({ type := ShapeType.circle, radius := 5, width := 10, height := 10 } :
            ShapeStyle) from rfl]
    rw [show getNodeRadius
        ({ type := ShapeType.circle, radius := 5, width := 10, height := 10 } :
          ShapeStyle) * 1 = (5 : ℝ) from by norm_num [getNodeRadius]]
    rw [show max ((5 : ℝ) * (2 / 3)) (5 - 4 * 1) = 10 / 3 from by
      rw [max_eq_left (by norm_num)]
      norm_num]
    rw [hcross, hPC, hNC, hPN, hNN]
    rw [show c5PrevLine.line.target = (⟨0, 0⟩ : Vec2) from rfl]
    rw [show c5NextLine.line.source = (⟨0, 6⟩ : Vec2) from rfl]
    simp only [calculateTransitPos]
    rw [hdist]
    rw [if_neg (by norm_num : ¬ (240 : ℝ) < 10 / 3),
      if_neg (by norm_num : ¬ (240 : ℝ) ≤ 5)]
    rw [show c5PrevLine.curve = (Option.none : Option Curve) from rfl,
      show c5NextLine.curve = (Option.none : Option Curve) from rfl]
    simp only [transitBothCrossings, findFirstNonNull2]
    simp [Bool.false_eq_true]
  have hstart : pathBoundaryPoint c5PrevLine c5Shapes c5Layouts 1 0
      PathEndType.centerOfNode true = (⟨-20, 0⟩ : Vec2) := by
    simp only [pathBoundaryPoint, pathLineMargin]
    rw [if_neg (by decide :
      ¬ (PathEndType.centerOfNode = PathEndType.edgeOfNode))]
    rw [if_pos (by norm_num : (0 : ℝ) + 0 ≤ 0)]
    rfl
  have hend : pathBoundaryPoint c5NextLine c5Shapes c5Layouts 1 0
      PathEndType.centerOfNode false = (⟨40, 7⟩ : Vec2) := by
    simp only [pathBoundaryPoint, pathLineMargin]
    rw [if_neg (by decide :
      ¬ (PathEndType.centerOfNode = PathEndType.edgeOfNode))]
    rw [if_pos (by norm_num : (0 : ℝ) + 0 ≤ 0)]
    rfl
  have hraw : pathPointsRaw c5Path.edges c5Shapes c5Layouts c5States 1 false
      PathEndType.centerOfNode 0
      = [PathPoint.pt ⟨-20, 0⟩, PathPoint.pt ⟨-(10 / 3), 0⟩, PathPoint.pt ⟨0, 6⟩,
         PathPoint.pt ⟨40, 7⟩] := by
    simp only [pathPointsRaw, hlines]
    simp only [List.zip_cons_cons, List.zip_nil_right, List.foldl_cons, List.foldl_nil]
    rw [show ([c5NextLine].getLastD c5PrevLine) = c5NextLine from rfl]
    rw [hstart, hend, htrans]
    simp only [pathEndPoints]
    rw [show c5NextLine.curve = (Option.none : Option Curve) from rfl]
    simp
  have hfs : ¬ marginOverRun c5PrevLine c5Shapes 1 0 PathEndType.centerOfNode true :=
    fun h => absurd h.1 (by norm_num)
  have hfe : ¬ marginOverRun c5NextLine c5Shapes 1 0 PathEndType.centerOfNode false :=
    fun h => absurd h.1 (by norm_num)
  have hfinal : calculatePathPoints c5Path c5Shapes c5Layouts c5States 1 false
      PathEndType.centerOfNode 0
      = [PathPoint.pt ⟨-20, 0⟩, PathPoint.pt ⟨-(10 / 3), 0⟩, PathPoint.pt ⟨0, 6⟩,
         PathPoint.pt ⟨40, 7⟩] := by
    simp only [calculatePathPoints, hlines]
    rw [show ([c5NextLine].getLastD c5PrevLine) = c5NextLine from rfl]
    rw [decide_eq_false hfs, decide_eq_false hfe]
    rw [hraw]
    simp only [trimPathPoints, Bool.false_eq_true, if_false]
  refine ⟨hlines, hcross, ?_, hfinal, ?_⟩
  · rw [hdist]
    rw [show c5Shapes "B"
        = ({ type := ShapeType.circle, radius := 5, width := 10, height := 10 } :
            ShapeStyle) from rfl]
    norm_num [getNodeRadius]
  · intro hcontra
    rw [hfinal] at hcontra
    simp only [List.cons.injEq, PathPoint.pt.injEq, Vec2.mk.injEq] at hcontra
    norm_num at hcontra

theorem pathEndPoints_append (lastEdge : EdgeLine) (points : List PathPoint)
    (endPoint : Vec2) :
    ∃ t, pathEndPoints lastEdge points endPoint = points ++ t := by
  unfold pathEndPoints
  cases hc : lastEdge.curve
  · exact ⟨_, rfl⟩
  · exact ⟨_, rfl⟩

theorem foldl_transitStep_prefix (nodeShapes : String → ShapeStyle)
    (nodeLayouts : String → Vec2) (scale : ℝ) (curveInNode : Bool)
    (pairs : List (EdgeLine × EdgeLine)) (init : List PathPoint) :
    ∃ t, pairs.foldl
        (fun pts pr => transitStep nodeShapes nodeLayouts scale curveInNode pts pr.1 pr.2)
        init
      = init ++ t := by
  induction pairs generalizing init with
  | nil => exact ⟨[], (List.append_nil init).symm⟩
  | cons pr rest ih =>
      obtain ⟨t1, ht1⟩ :=
        ih (transitStep nodeShapes nodeLayouts scale curveInNode init pr.1 pr.2)
      refine ⟨transitStepTail nodeShapes nodeLayouts scale curveInNode init pr.1 pr.2
        ++ t1, ?_⟩
      simp only [List.foldl_cons]
      rw [ht1]
      simp only [transitStep]
      rw [List.append_assoc]

/-- Claim C7 (amended): the first emitted point of the untrimmed
sequence is always the start boundary point, and the returned sequence
is the untrimmed sequence trimmed under the flags actually computed by
the source — the margin is positive and the source-to-target distance
of the display line is at most the line margin plus the scaled radius
of the far end node (not the spec's offset-versus-distance condition);
when neither flag holds nothing is dropped. -/
theorem c7_overrun_trimming (path : PathObject) (nodeShapes : String → ShapeStyle)
    (nodeLayouts : String → Vec2) (edgeStates : String → PathEdgeState)
    (scale : ℝ) (curveInNode : Bool) (pathEndType : PathEndType) (margin : ℝ)
    (firstEdge : EdgeLine) (restLines : List EdgeLine)
    (h : pathEdgeLines path.edges edgeStates = firstEdge :: restLines) :
    (pathPointsRaw path.edges nodeShapes nodeLayouts edgeStates scale curveInNode
        pathEndType margin).head?
      = Option.some (PathPoint.pt (pathBoundaryPoint firstEdge nodeShapes nodeLayouts
          scale margin pathEndType true))
    ∧ calculatePathPoints path nodeShapes nodeLayouts edgeStates scale curveInNode
        pathEndType margin
      = trimPathPoints
          (pathPointsRaw path.edges nodeShapes nodeLayouts edgeStates scale curveInNode
            pathEndType margin)
          (decide (marginOverRun firstEdge nodeShapes scale margin pathEndType true))
          (decide (marginOverRun (restLines.getLastD firstEdge) nodeShapes scale margin
            pathEndType false))
    ∧ (¬ marginOverRun firstEdge nodeShapes scale margin pathEndType true →
        ¬ marginOverRun (restLines.getLastD firstEdge) nodeShapes scale margin
            pathEndType false →
        calculatePathPoints path nodeShapes nodeLayouts edgeStates scale curveInNode
            pathEndType margin
          = pathPointsRaw path.edges nodeShapes nodeLayouts edgeStates scale curveInNode
              pathEndType margin) := by
  have h2 : calculatePathPoints path nodeShapes nodeLayouts edgeStates scale curveInNode
      pathEndType margin
      = trimPathPoints
          (pathPointsRaw path.edges nodeShapes nodeLayouts edgeStates scale curveInNode
            pathEndType margin)
          (decide (marginOverRun firstEdge nodeShapes scale margin pathEndType true))
          (decide (marginOverRun (restLines.getLastD firstEdge) nodeShapes scale margin
            pathEndType false)) := by
    simp only [calculatePathPoints, h]
  refine ⟨?_, h2, ?_⟩
  · simp only [pathPointsRaw, h]
    obtain ⟨t1, ht1⟩ := foldl_transitStep_prefix nodeShapes nodeLayouts scale curveInNode
      (List.zip (firstEdge :: restLines) restLines)
      [PathPoint.pt (pathBoundaryPoint firstEdge nodeShapes nodeLayouts scale margin
        pathEndType true)]
    rw [ht1]
    obtain ⟨t2, ht2⟩ := pathEndPoints_append (restLines.getLastD firstEdge)
      ([PathPoint.pt (pathBoundaryPoint firstEdge nodeShapes nodeLayouts scale margin
        pathEndType true)] ++ t1)
      (pathBoundaryPoint (restLines.getLastD firstEdge) nodeShapes nodeLayouts scale
        margin pathEndType false)
    rw [ht2]
    simp
  · intro hs he
    rw [h2, decide_eq_false hs, decide_eq_false he]
    simp only [trimPathPoints, Bool.false_eq_true, if_false]

/-- Concrete single-edge path for claim C7. -/
def c7Path : PathObject :=
  { path := { edges := ["e"] },
    edges := [{ edgeId := "e", edge := { source := "A", target := "B" } }] }

/-- Concrete node shapes for claim C7: the far end node `B` has
radius 8. -/
def c7Shapes : String → ShapeStyle := fun n =>
  if n = "B" then { type := ShapeType.circle, radius := 8, width := 16, height := 16 }
  else { type := ShapeType.circle, radius := 0, width := 0, height := 0 }

/-- Concrete node layouts for claim C7: a horizontal span of
length 12. -/
def c7Layouts : String → Vec2 := fun n =>
  if n = "B" then ⟨12, 0⟩ else ⟨0, 0⟩

/-- Concrete edge state for claim C7: a straight display line from the
source node to the target node. -/
def c7States : String → PathEdgeState := fun _ =>
  { origin := { x1 := 0, y1 := 0, x2 := 12, y2 := 0 }, curve := Option.none }

/-- The resolved edge line of the claim C7 path. -/
def c7Line : EdgeLine :=
  { edgeId := "e", source := "A", target := "B",
    line := { source := ⟨0, 0⟩, target := ⟨12, 0⟩ }, curve := Option.none }

theorem c7_overrun_trimming_witness :
    calculatePathPoints c7Path c7Shapes c7Layouts c7States 1 false
        PathEndType.centerOfNode 0
      = pathPointsRaw c7Path.edges c7Shapes c7Layouts c7States 1 false
          PathEndType.centerOfNode 0 :=
  (c7_overrun_trimming c7Path c7Shapes c7Layouts c7States 1 false
      PathEndType.centerOfNode 0 c7Line [] rfl).2.2
    (fun hov => absurd hov.1 (by norm_num))
    (fun hov => absurd hov.1 (by norm_num))

/-- Counterexample to claim C7: with margin `5` on a line of length
`12` the boundary offset `5` does not meet the source-to-target
distance, so per the claim no start overrun is flagged and no point is
dropped — but the source compares the distance against the margin plus
the far end node radius `8`, flags the start overrun, and drops the
emitted start boundary point `(5, 0)` from the returned sequence. -/
theorem c7_overrun_counterexample :
    pathEdgeLines c7Path.edges c7States = [c7Line]
    ∧ ¬ (calculateDistance c7Line.line.source c7Line.line.target
          ≤ pathLineMargin c7Line c7Shapes 1 5 PathEndType.centerOfNode true)
    ∧ ¬ (calculateDistance c7Line.line.source c7Line.line.target
          ≤ pathLineMargin c7Line c7Shapes 1 5 PathEndType.centerOfNode false)
    ∧ pathPointsRaw c7Path.edges c7Shapes c7Layouts c7States 1 false
        PathEndType.centerOfNode 5
      = [PathPoint.pt ⟨5, 0⟩, PathPoint.pt ⟨7, 0⟩]
    ∧ calculatePathPoints c7Path c7Shapes c7Layouts c7States 1 false
        PathEndType.centerOfNode 5
      = [PathPoint.pt ⟨7, 0⟩] := by
  have h120 : Real.sqrt 14400 = 120 := by
    rw [show (14400 : ℝ) = 120 ^ 2 by norm_num]
    exact Real.sqrt_sq (by norm_num)
  have h12s : Real.sqrt 144 = 12 := by
    rw [show (144 : ℝ) = 12 ^ 2 by norm_num]
    exact Real.sqrt_sq (by norm_num)
  have hlines7 : pathEdgeLines c7Path.edges c7States = [c7Line] := rfl
  have hd12 : calculateDistance ⟨0, 0⟩ ⟨12, 0⟩ = 12 := by
    norm_num [calculateDistance, vnorm, vsub, h12s]
  have hplmS : pathLineMargin c7Line c7Shapes 1 5 PathEndType.centerOfNode true = 5 := by
    simp only [pathLineMargin]
    rw [if_neg (by decide :
      ¬ (PathEndType.centerOfNode = PathEndType.edgeOfNode))]
    norm_num
  have hplmE : pathLineMargin c7Line c7Shapes 1 5 PathEndType.centerOfNode false = 5 := by
    simp only [pathLineMargin]
    rw [if_neg (by decide :
      ¬ (PathEndType.centerOfNode = PathEndType.edgeOfNode))]
    norm_num
  have hI5 : getIntersectionOfLineTargetAndCircle ⟨12, 0⟩ ⟨0, 0⟩ ⟨0, 0⟩ 5
      = Option.some ⟨5, 0⟩ := by
    norm_num [getIntersectionOfLineTargetAndCircle, vsub, vadd, smul, dot, h120,
      Vec2.mk.injEq]
  have hI7 : getIntersectionOfLineTargetAndCircle ⟨0, 0⟩ ⟨12, 0⟩ ⟨12, 0⟩ 5
      = Option.some ⟨7, 0⟩ := by
    norm_num [getIntersectionOfLineTargetAndCircle, vsub, vadd, smul, dot, h120,
      Vec2.mk.injEq]
  have hlayA : c7Layouts "A" = (⟨0, 0⟩ : Vec2) := rfl
  have hlayB : c7Layouts "B" = (⟨12, 0⟩ : Vec2) := rfl
  have hedgeS : calculateEdgeOfNode c7Line 5 c7Layouts true = (⟨5, 0⟩ : Vec2) := by
    norm_num [calculateEdgeOfNode, c7Line, hlayA, hI5]
  have hedgeE : calculateEdgeOfNode c7Line 5 c7Layouts false = (⟨7, 0⟩ : Vec2) := by
    norm_num [calculateEdgeOfNode, c7Line, hlayB, hI7]
  have hstart7 : pathBoundaryPoint c7Line c7Shapes c7Layouts 1 5
      PathEndType.centerOfNode true = (⟨5, 0⟩ : Vec2) := by
    simp only [pathBoundaryPoint, hplmS]
    rw [if_neg (by norm_num : ¬ (5 : ℝ) ≤ 0)]
    exact hedgeS
  have hend7 : pathBoundaryPoint c7Line c7Shapes c7Layouts 1 5
      PathEndType.centerOfNode false = (⟨7, 0⟩ : Vec2) := by
    simp only [pathBoundaryPoint, hplmE]
    rw [if_neg (by norm_num : ¬ (5 : ℝ) ≤ 0)]
    exact hedgeE
  have hraw7 : pathPointsRaw c7Path.edges c7Shapes c7Layouts c7States 1 false
      PathEndType.centerOfNode 5
      = [PathPoint.pt ⟨5, 0⟩, PathPoint.pt ⟨7, 0⟩] := by
    simp only [pathPointsRaw, hlines7]
    simp only [List.zip_nil_right, List.foldl_nil]
    rw [show (([] : List EdgeLine).getLastD c7Line) = c7Line from rfl]
    rw [hstart7, hend7]
    simp only [pathEndPoints]
    rw [show c7Line.curve = (Option.none : Option Curve) from rfl]
    simp
  have hfS : marginOverRun c7Line c7Shapes 1 5 PathEndType.centerOfNode true := by
    show 0 < (5 : ℝ) ∧ calculateDistance ⟨0, 0⟩ ⟨12, 0⟩
      ≤ pathLineMargin c7Line c7Shapes 1 5 PathEndType.centerOfNode true
        + getNodeRadius ⟨ShapeType.circle, 8, 16, 16⟩ * 1
    refine ⟨by norm_num, ?_⟩
    rw [hd12, hplmS]
    norm_num [getNodeRadius]
  have hfE : ¬ marginOverRun c7Line c7Shapes 1 5 PathEndType.centerOfNode false := by
    intro hov
    have hle : calculateDistance ⟨0, 0⟩ ⟨12, 0⟩
        ≤ pathLineMargin c7Line c7Shapes 1 5 PathEndType.centerOfNode false
          + getNodeRadius ⟨ShapeType.circle, 0, 0, 0⟩ * 1 := hov.2
    rw [hd12, hplmE] at hle
    norm_num [getNodeRadius] at hle
  have hfinal7 : calculatePathPoints c7Path c7Shapes c7Layouts c7States 1 false
      PathEndType.centerOfNode 5 = [PathPoint.pt ⟨7, 0⟩] := by
    simp only [calculatePathPoints, hlines7]
    rw [show (([] : List EdgeLine).getLastD c7Line) = c7Line from rfl]
    rw [decide_eq_true hfS, decide_eq_false hfE]
    rw [hraw7]
    simp only [trimPathPoints]
    simp
  refine ⟨hlines7, ?_, ?_, hraw7, hfinal7⟩
  · rw [show c7Line.line.source = (⟨0, 0⟩ : Vec2) from rfl,
      show c7Line.line.target = (⟨12, 0⟩ : Vec2) from rfl, hd12, hplmS]
    norm_num
  · rw [show c7Line.line.source = (⟨0, 0⟩ : Vec2) from rfl,
      show c7Line.line.target = (⟨12, 0⟩ : Vec2) from rfl, hd12, hplmE]
    norm_num

end VNG
